import Mathlib

/-!
Log group convergence hooks (`pkg/resource/log_group/hook.go`)

A shallow embedding of the hand-written hooks of the CloudWatch Logs log-group
resource manager, followed by theorems about them.

Conventions of the embedding

* A Go pointer `*T` is an `Option T`; `none` is the nil pointer.
* A function that dereferences pointers returns an `Option`; `none` is the
  run-time panic of a nil dereference.
* A Go `error` is an `Option Err`; `none` is the nil error.
* A slice that may be nil and is told apart from the empty slice is an
  `Option (List _)`.
* The remote service is scripted: the outcomes of the successive remote calls
  are given as a list, one entry is consumed per call, and every call and every
  metrics record is appended to a log.  A function whose script runs dry before
  it returns yields `none`.
-/

set_option autoImplicit false

namespace svcapitypes

/-- The controller-side subscription filter record
(`svcapitypes.PutSubscriptionFilterInput`); every field is a `*string`. -/
structure PutSubscriptionFilterInput where
  DestinationARN : Option String
  Distribution : Option String
  FilterName : Option String
  FilterPattern : Option String
  RoleARN : Option String
  deriving DecidableEq, Repr

/-- The fields of `LogGroupSpec` that the hooks read. -/
structure LogGroupSpec where
  Name : Option String
  RetentionDays : Option Int
  SubscriptionFilters : List (Option PutSubscriptionFilterInput)
  deriving DecidableEq, Repr

/-- The field of `LogGroupStatus` that the hooks write. -/
structure LogGroupStatus where
  RetentionInDays : Option Int
  deriving DecidableEq, Repr

/-- The custom resource `LogGroup`. -/
structure LogGroup where
  Spec : LogGroupSpec
  Status : LogGroupStatus
  deriving DecidableEq, Repr

end svcapitypes

namespace svcsdk

/-- Input of the remote call `PutRetentionPolicy`. -/
structure PutRetentionPolicyInput where
  LogGroupName : Option String
  RetentionInDays : Option Int
  deriving DecidableEq, Repr

/-- Input of the remote call `DeleteRetentionPolicy`. -/
structure DeleteRetentionPolicyInput where
  LogGroupName : Option String
  deriving DecidableEq, Repr

/-- Input of the remote call `PutSubscriptionFilter`. -/
structure PutSubscriptionFilterInput where
  DestinationArn : Option String
  Distribution : Option String
  FilterName : Option String
  FilterPattern : Option String
  LogGroupName : Option String
  RoleArn : Option String
  deriving DecidableEq, Repr

/-- Input of the remote call `DeleteSubscriptionFilter`. -/
structure DeleteSubscriptionFilterInput where
  FilterName : Option String
  LogGroupName : Option String
  deriving DecidableEq, Repr

/-- Input of the remote call `DescribeSubscriptionFilters`; the hook sets the
log group name and, from the second page on, the continuation token. -/
structure DescribeSubscriptionFiltersInput where
  LogGroupName : Option String
  NextToken : Option String
  deriving DecidableEq, Repr

/-- One record of a `DescribeSubscriptionFilters` page. -/
structure SubscriptionFilter where
  CreationTime : Option Int
  DestinationArn : Option String
  Distribution : Option String
  FilterName : Option String
  FilterPattern : Option String
  LogGroupName : Option String
  RoleArn : Option String
  deriving DecidableEq, Repr

/-- One page returned by `DescribeSubscriptionFilters`.  The records of a page
are taken to be non-nil, as the SDK builds them when it decodes a response. -/
structure DescribeSubscriptionFiltersOutput where
  NextToken : Option String
  SubscriptionFilters : List SubscriptionFilter
  deriving DecidableEq, Repr

end svcsdk

namespace ackcompare

/-- The delta of the runtime (`ackcompare.Delta`), as far as the hooks use it:
whether the two compared resources differ at a field path. -/
structure Delta where
  DifferentAt : String → Bool

end ackcompare

namespace log_group

open svcapitypes (PutSubscriptionFilterInput)

/-- The remote default of the `Distribution` field. -/
def defaultDistribution : String := "ByLogStream"

/-- Nil-tolerant comparison of two `*string` values, branch for branch as in
the source: the first `if` handles `a == nil`, the second returns `false` for
`a != nil && b == nil`, the last line compares the pointees. -/
def equalStrings (a b : Option String) : Bool :=
  match a with
  | none =>
    match b with
    | none => true
    | some bv => decide (bv = "")
  | some av =>
    match b with
    | none => false
    | some bv => (decide (av = "") && false) || decide (av = bv)

/-- Equivalence of two filter records.  The four string fields go through
`equalStrings`; `Distribution` dereferences `b.Distribution` (and
`a.Distribution` when it is not nil), so the result is `none` when
`b.Distribution` is nil and the four string fields agree. -/
def equalSubscriptionFilters (a b : PutSubscriptionFilterInput) : Option Bool :=
  if !equalStrings a.FilterName b.FilterName then some false
  else if !equalStrings a.DestinationARN b.DestinationARN then some false
  else if !equalStrings a.FilterPattern b.FilterPattern then some false
  else if !equalStrings a.RoleARN b.RoleARN then some false
  else
    match a.Distribution with
    | none =>
      match b.Distribution with
      | none => none
      | some bd => some (decide (bd = defaultDistribution))
    | some ad =>
      match b.Distribution with
      | none => none
      | some bd => some (decide (ad = bd))

/-- Inner loop of the first pass of `compareSubscriptionFilters`: scan
`observed` for the first filter whose name equals that of `d`; the result is
the value of `found` when the loop is left.  Each iteration dereferences both
pointers and both names. -/
def scanObserved (d : Option PutSubscriptionFilterInput) :
    List (Option PutSubscriptionFilterInput) → Option Bool
  | [] => some false
  | o :: rest =>
    match d with
    | none => none
    | some dv =>
      match dv.FilterName with
      | none => none
      | some dname =>
        match o with
        | none => none
        | some ov =>
          match ov.FilterName with
          | none => none
          | some oname =>
            if dname = oname then
              match equalSubscriptionFilters dv ov with
              | none => none
              | some eq => if !eq then some false else some true
            else scanObserved d rest

/-- First pass of `compareSubscriptionFilters`: the loop over `desired`,
appending to `toAdd` every filter for which `found` stayed false. -/
def firstPass (observed : List (Option PutSubscriptionFilterInput)) :
    List (Option PutSubscriptionFilterInput) → List (Option PutSubscriptionFilterInput) →
    Option (List (Option PutSubscriptionFilterInput))
  | [], toAdd => some toAdd
  | d :: rest, toAdd =>
    match scanObserved d observed with
    | none => none
    | some found => firstPass observed rest (if !found then toAdd ++ [d] else toAdd)

/-- Inner loop of the second pass: scan `desired` for a filter whose name
equals that of `o`; the result is the value of `found`. -/
def scanDesired (o : Option PutSubscriptionFilterInput) :
    List (Option PutSubscriptionFilterInput) → Option Bool
  | [] => some false
  | d :: rest =>
    match o with
    | none => none
    | some ov =>
      match ov.FilterName with
      | none => none
      | some oname =>
        match d with
        | none => none
        | some dv =>
          match dv.FilterName with
          | none => none
          | some dname => if oname = dname then some true else scanDesired o rest

/-- Second pass of `compareSubscriptionFilters`: the loop over `observed`,
appending to `toRemove` every filter whose name was not found in `desired`. -/
def secondPass (desired : List (Option PutSubscriptionFilterInput)) :
    List (Option PutSubscriptionFilterInput) → List (Option PutSubscriptionFilterInput) →
    Option (List (Option PutSubscriptionFilterInput))
  | [], toRemove => some toRemove
  | o :: rest, toRemove =>
    match scanDesired o desired with
    | none => none
    | some found => secondPass desired rest (if !found then toRemove ++ [o] else toRemove)

/-- The diff of the desired against the observed filters: `(toAdd, toRemove)`,
or `none` when a nil pointer is dereferenced on the way. -/
def compareSubscriptionFilters (desired observed : List (Option PutSubscriptionFilterInput)) :
    Option (List (Option PutSubscriptionFilterInput) × List (Option PutSubscriptionFilterInput)) :=
  match firstPass observed desired [] with
  | none => none
  | some toAdd =>
    match secondPass desired observed [] with
    | none => none
    | some toRemove => some (toAdd, toRemove)

/-- A non-nil Go `error` value. -/
structure Err where
  msg : String
  deriving DecidableEq, Repr

/-- A remote call issued through `rm.sdkapi`, with its input. -/
inductive Call where
  | PutRetentionPolicy (input : svcsdk.PutRetentionPolicyInput)
  | DeleteRetentionPolicy (input : svcsdk.DeleteRetentionPolicyInput)
  | PutSubscriptionFilter (input : svcsdk.PutSubscriptionFilterInput)
  | DeleteSubscriptionFilter (input : svcsdk.DeleteSubscriptionFilterInput)
  | DescribeSubscriptionFilters (input : svcsdk.DescribeSubscriptionFiltersInput)
  deriving DecidableEq, Repr

/-- One invocation of `rm.metrics.RecordAPICall(opType, opID, err)`. -/
structure APICallRecord where
  opType : String
  opID : String
  err : Option Err
  deriving DecidableEq, Repr

/-- What a resource manager acts on: `pending` holds the outcomes the remote
service gives to the calls still to come (one is consumed per call), `calls`
the remote calls issued so far and `metrics` the metrics records made so far,
both oldest first. -/
structure World (ρ : Type) where
  pending : List ρ
  calls : List Call
  metrics : List APICallRecord

/-- The resource wrapper `resource` around the custom resource. -/
structure resource where
  ko : svcapitypes.LogGroup
  deriving DecidableEq, Repr

/-- Reconciles the retention policy: `PutRetentionPolicy` when
`Spec.RetentionDays` is set and not zero, `DeleteRetentionPolicy` otherwise.
The outcome of a retention call is its error (the outputs carry no data).
Returns the error of the function and the world after it; `none` when the
script has no outcome left for the call. -/
def updateRetentionPeriod (desired : resource) (w : World (Option Err)) :
    Option (Option Err × World (Option Err)) :=
  if (match desired.ko.Spec.RetentionDays with
      | none => false
      | some days => decide (days ≠ 0)) then
    let input : svcsdk.PutRetentionPolicyInput :=
      { RetentionInDays := desired.ko.Spec.RetentionDays,
        LogGroupName := desired.ko.Spec.Name }
    match w.pending with
    | [] => none
    | err :: rest =>
      let w1 : World (Option Err) :=
        { pending := rest,
          calls := w.calls ++ [Call.PutRetentionPolicy input],
          metrics := w.metrics ++ [⟨"UPDATE", "PutRetentionPolicy", err⟩] }
      match err with
      | some e => some (some e, w1)
      | none => some (none, w1)
  else
    let input : svcsdk.DeleteRetentionPolicyInput :=
      { LogGroupName := desired.ko.Spec.Name }
    match w.pending with
    | [] => none
    | err :: rest =>
      let w1 : World (Option Err) :=
        { pending := rest,
          calls := w.calls ++ [Call.DeleteRetentionPolicy input],
          metrics := w.metrics ++ [⟨"UPDATE", "DeleteRetentionPolicy", err⟩] }
      match err with
      | some e => some (some e, w1)
      | none => some (none, w1)

/-- Outcome of one `DescribeSubscriptionFilters` call: the error, or the page. -/
abbrev DescribeResponse := Except Err svcsdk.DescribeSubscriptionFiltersOutput

/-- What `getSubscriptionFilters` returns: the slice (`none` is the nil slice)
and the error. -/
abbrev ListResult := Option (List (Option PutSubscriptionFilterInput)) × Option Err

/-- The record appended for one remote record of a page. -/
def fromRemote (subscriptionFilter : svcsdk.SubscriptionFilter) : PutSubscriptionFilterInput :=
  { FilterName := subscriptionFilter.FilterName,
    DestinationARN := subscriptionFilter.DestinationArn,
    FilterPattern := subscriptionFilter.FilterPattern,
    RoleARN := subscriptionFilter.RoleArn,
    Distribution := subscriptionFilter.Distribution }

/-- The `for` loop of `getSubscriptionFilters`, one iteration per scripted
outcome: `token` is `input.NextToken`, `subscriptionFilters` the slice
collected so far. -/
def describeLoop (name : Option String) :
    List DescribeResponse → Option String → List (Option PutSubscriptionFilterInput) →
    List Call → List APICallRecord → Option (ListResult × World DescribeResponse)
  | [], _, _, _, _ => none
  | r :: rest, token, subscriptionFilters, calls, metrics =>
    let calls1 := calls ++
      [Call.DescribeSubscriptionFilters { LogGroupName := name, NextToken := token }]
    match r with
    | Except.error err =>
      some ((none, some err),
        { pending := rest, calls := calls1,
          metrics := metrics ++ [⟨"READ_MANY", "DescribeSubscriptionFilters", some err⟩] })
    | Except.ok resp =>
      let metrics1 := metrics ++ [⟨"READ_MANY", "DescribeSubscriptionFilters", none⟩]
      let collected := resp.SubscriptionFilters.foldl
        (fun acc subscriptionFilter => acc ++ [some (fromRemote subscriptionFilter)])
        subscriptionFilters
      match resp.NextToken with
      | none =>
        some ((some collected, none), { pending := rest, calls := calls1, metrics := metrics1 })
      | some next => describeLoop name rest (some next) collected calls1 metrics1

/-- Lists every subscription filter of the log group `name`, page by page. -/
def getSubscriptionFilters (name : Option String) (w : World DescribeResponse) :
    Option (ListResult × World DescribeResponse) :=
  describeLoop name w.pending none [] w.calls w.metrics

/-- Calls `DeleteSubscriptionFilter` for the filter `filterName` of the log
group of `desired`.  The output carries no data; the result is the error. -/
def removeSubscriptionFilter (desired : resource) (filterName : Option String)
    (w : World (Option Err)) : Option (Option Err × World (Option Err)) :=
  let input : svcsdk.DeleteSubscriptionFilterInput :=
    { FilterName := filterName,
      LogGroupName := desired.ko.Spec.Name }
  match w.pending with
  | [] => none
  | err :: rest =>
    let w1 : World (Option Err) :=
      { pending := rest,
        calls := w.calls ++ [Call.DeleteSubscriptionFilter input],
        metrics := w.metrics ++ [⟨"UPDATE", "DeleteSubscriptionFilter", err⟩] }
    match err with
    | some e => some (some e, w1)
    | none => some (none, w1)

/-- Calls `PutSubscriptionFilter` for `subscriptionFilter` on the log group of
`desired`; building the input dereferences `subscriptionFilter`. -/
def addSubscriptionFilter (desired : resource)
    (subscriptionFilter : Option PutSubscriptionFilterInput)
    (w : World (Option Err)) : Option (Option Err × World (Option Err)) :=
  match subscriptionFilter with
  | none => none
  | some sf =>
    let input : svcsdk.PutSubscriptionFilterInput :=
      { LogGroupName := desired.ko.Spec.Name,
        RoleArn := sf.RoleARN,
        FilterName := sf.FilterName,
        DestinationArn := sf.DestinationARN,
        FilterPattern := sf.FilterPattern,
        Distribution := sf.Distribution }
    match w.pending with
    | [] => none
    | err :: rest =>
      let w1 : World (Option Err) :=
        { pending := rest,
          calls := w.calls ++ [Call.PutSubscriptionFilter input],
          metrics := w.metrics ++ [⟨"UPDATE", "PutSubscriptionFilter", err⟩] }
      match err with
      | some e => some (some e, w1)
      | none => some (none, w1)

/-- The loop of `updateSubscriptionFilters` over `toRemove`: one removal per
entry (reading the name dereferences the entry), left at the first error. -/
def removeLoop (desired : resource) :
    List (Option PutSubscriptionFilterInput) → World (Option Err) →
    Option (Option Err × World (Option Err))
  | [], w => some (none, w)
  | subscriptionFilter :: rest, w =>
    match subscriptionFilter with
    | none => none
    | some sf =>
      match removeSubscriptionFilter desired sf.FilterName w with
      | none => none
      | some (some err, w1) => some (some err, w1)
      | some (none, w1) => removeLoop desired rest w1

/-- The loop of `updateSubscriptionFilters` over `toAdd`: one put per entry,
left at the first error. -/
def addLoop (desired : resource) :
    List (Option PutSubscriptionFilterInput) → World (Option Err) →
    Option (Option Err × World (Option Err))
  | [], w => some (none, w)
  | subscriptionFilter :: rest, w =>
    match addSubscriptionFilter desired subscriptionFilter w with
    | none => none
    | some (some err, w1) => some (some err, w1)
    | some (none, w1) => addLoop desired rest w1

/-- Reconciles the subscription filters: the diff of the desired against the
latest filters, then the removals, then the puts. -/
def updateSubscriptionFilters (desired latest : resource) (w : World (Option Err)) :
    Option (Option Err × World (Option Err)) :=
  match compareSubscriptionFilters desired.ko.Spec.SubscriptionFilters
      latest.ko.Spec.SubscriptionFilters with
  | none => none
  | some (toAdd, toRemove) =>
    match removeLoop desired toRemove w with
    | none => none
    | some (some err, w1) => some (some err, w1)
    | some (none, w1) => addLoop desired toAdd w1

/-- Modelled from the spec: `setStatusDefaults` is generated code of the
resource manager and not part of the hooks file.  The snapshot that the update
returns is "an independent copy of `desired` enriched with computed status
fields", so the defaults are written to the status and the spec is left as it
is; what they do to the status is the parameter `statusDefaults` of the
resource manager. -/
structure resourceManager where
  statusDefaults : svcapitypes.LogGroupStatus → svcapitypes.LogGroupStatus

/-- Modelled from the spec: `setStatusDefaults` applies the status defaults of
the resource manager to the status of `ko`. -/
def resourceManager.setStatusDefaults (rm : resourceManager) (ko : svcapitypes.LogGroup) :
    svcapitypes.LogGroup :=
  { ko with Status := rm.statusDefaults ko.Status }

/-- The end of `customUpdateLogGroup`, after both reconciliations: the status
retention is the desired retention when that is set, and zero otherwise. -/
def writeStatusRetention (desired : resource) (ko : svcapitypes.LogGroup) :
    svcapitypes.LogGroup :=
  match desired.ko.Spec.RetentionDays with
  | some days => { ko with Status := { ko.Status with RetentionInDays := some days } }
  | none => { ko with Status := { ko.Status with RetentionInDays := some 0 } }

/-- The part of `customUpdateLogGroup` from the check of
`Spec.SubscriptionFilters` on; `ko` is the copy of the desired object with the
status defaults. -/
def customUpdateFilters (desired latest : resource) (delta : ackcompare.Delta)
    (ko : svcapitypes.LogGroup) (w : World (Option Err)) :
    Option ((resource × Option Err) × World (Option Err)) :=
  if delta.DifferentAt "Spec.SubscriptionFilters" then
    match updateSubscriptionFilters desired latest w with
    | none => none
    | some (some err, w1) => some ((⟨ko⟩, some err), w1)
    | some (none, w1) => some ((⟨writeStatusRetention desired ko⟩, none), w1)
  else some ((⟨writeStatusRetention desired ko⟩, none), w)

/-- Patches the retention and the subscription filters where the delta flags
them and returns the updated resource and the error. -/
def customUpdateLogGroup (rm : resourceManager) (desired latest : resource)
    (delta : ackcompare.Delta) (w : World (Option Err)) :
    Option ((resource × Option Err) × World (Option Err)) :=
  let ko := rm.setStatusDefaults desired.ko
  if delta.DifferentAt "Spec.RetentionDays" then
    match updateRetentionPeriod desired w with
    | none => none
    | some (some err, w1) => some ((⟨ko⟩, some err), w1)
    | some (none, w1) => customUpdateFilters desired latest delta ko w1
  else customUpdateFilters desired latest delta ko w

/-- Initialises the retention of both resources before they are compared: a
nil `Spec.RetentionDays` becomes a pointer to zero.  The two resources are
changed in place; the result is the pair after the call. -/
def customPreCompare (_delta : ackcompare.Delta) (a b : resource) : resource × resource :=
  let retention : Int := 0
  let a1 : resource :=
    match a.ko.Spec.RetentionDays with
    | none => ⟨{ a.ko with Spec := { a.ko.Spec with RetentionDays := some retention } }⟩
    | some _ => a
  let b1 : resource :=
    match b.ko.Spec.RetentionDays with
    | none => ⟨{ b.ko with Spec := { b.ko.Spec with RetentionDays := some retention } }⟩
    | some _ => b
  (a1, b1)

/-! ### Calls and records that the statements speak of -/

/-- The `DeleteSubscriptionFilter` call for the filter `f` on the log group of
`desired`: the name of the filter and the name of the log group. -/
def deleteCallFor (desired : resource) (f : PutSubscriptionFilterInput) : Call :=
  Call.DeleteSubscriptionFilter
    { FilterName := f.FilterName, LogGroupName := desired.ko.Spec.Name }

/-- The `PutSubscriptionFilter` call for the filter `f` on the log group of
`desired`: the five fields of the filter and the name of the log group. -/
def putCallFor (desired : resource) (f : PutSubscriptionFilterInput) : Call :=
  Call.PutSubscriptionFilter
    { FilterName := f.FilterName, DestinationArn := f.DestinationARN,
      FilterPattern := f.FilterPattern, RoleArn := f.RoleARN,
      Distribution := f.Distribution, LogGroupName := desired.ko.Spec.Name }

/-- The metrics record that belongs to a remote call that returned `err`:
operation class and operation name of the call, and `err`. -/
def recordFor (c : Call) (err : Option Err) : APICallRecord :=
  match c with
  | Call.PutRetentionPolicy _ => ⟨"UPDATE", "PutRetentionPolicy", err⟩
  | Call.DeleteRetentionPolicy _ => ⟨"UPDATE", "DeleteRetentionPolicy", err⟩
  | Call.PutSubscriptionFilter _ => ⟨"UPDATE", "PutSubscriptionFilter", err⟩
  | Call.DeleteSubscriptionFilter _ => ⟨"UPDATE", "DeleteSubscriptionFilter", err⟩
  | Call.DescribeSubscriptionFilters _ => ⟨"READ_MANY", "DescribeSubscriptionFilters", err⟩

/-- The error that a `DescribeSubscriptionFilters` outcome carries. -/
def errorOf (r : DescribeResponse) : Option Err :=
  match r with
  | Except.error err => some err
  | Except.ok _ => none

/-- The step from the world `w` to the world `w1` keeps the metrics in line
with the calls: some outcomes were consumed, as many calls were issued, and the
new metrics records are, in order, the records of these calls with the errors
of these outcomes. -/
def Recorded {ρ : Type} (errOf : ρ → Option Err) (w w1 : World ρ) : Prop :=
  ∃ (consumed : List ρ) (issued : List Call),
    w.pending = consumed ++ w1.pending ∧
    w1.calls = w.calls ++ issued ∧
    issued.length = consumed.length ∧
    w1.metrics = w.metrics ++ List.zipWith recordFor issued (consumed.map errOf)

/-! ### The remote collection after a diff has been applied

The remote service deletes a filter by name and puts a filter by name (a put
of an existing name replaces the filter of that name).  The three definitions
below state that effect on a collection of filters; the hooks do not compute
it, the properties of the diff are stated with it. -/

/-- The collection after one `DeleteSubscriptionFilter` per name of `names`:
every filter whose name occurs in `names` is gone. -/
def deleteNamed (names : List (Option String)) (coll : List PutSubscriptionFilterInput) :
    List PutSubscriptionFilterInput :=
  coll.filter (fun f => decide (f.FilterName ∉ names))

/-- The collection after one `PutSubscriptionFilter` of `f`: the filters named
as `f` are replaced by `f`; without such a filter `f` is added. -/
def upsertByName (coll : List PutSubscriptionFilterInput) (f : PutSubscriptionFilterInput) :
    List PutSubscriptionFilterInput :=
  if coll.any (fun x => decide (x.FilterName = f.FilterName)) then
    coll.map (fun x => if x.FilterName = f.FilterName then f else x)
  else coll ++ [f]

/-- The collection `observed` after the removals of `toRemove`, then the puts
of `toAdd`, both in list order. -/
def applyDiff (observed toAdd toRemove : List PutSubscriptionFilterInput) :
    List PutSubscriptionFilterInput :=
  toAdd.foldl upsertByName (deleteNamed (toRemove.map (fun f => f.FilterName)) observed)

/-- The observed filter that the first pass compares `d` with: the first one
of `observed` that carries the name of `d`. -/
def sameNamed (observed : List PutSubscriptionFilterInput) (d : PutSubscriptionFilterInput) :
    Option PutSubscriptionFilterInput :=
  observed.find? (fun o => decide (o.FilterName = d.FilterName))

/-- Whether `d` is to be put: no observed filter has its name, or the observed
filter found with that name is not equivalent to `d`. -/
def needsPut (observed : List PutSubscriptionFilterInput) (d : PutSubscriptionFilterInput) :
    Bool :=
  match sameNamed observed d with
  | none => true
  | some o => decide (equalSubscriptionFilters d o = some false)

/-- Whether `o` is to be deleted: its name is the name of no desired filter. -/
def needsDelete (desired : List PutSubscriptionFilterInput) (o : PutSubscriptionFilterInput) :
    Bool :=
  decide (o.FilterName ∉ desired.map (fun d => d.FilterName))

/-! ### Sample filters, used where a statement is instantiated -/

/-- A desired filter named `f` that leaves the distribution unset. -/
def sampleDesired : PutSubscriptionFilterInput :=
  { FilterName := some "f", DestinationARN := some "arn", FilterPattern := some "p",
    RoleARN := none, Distribution := none }

/-- The remote view of `sampleDesired`: the distribution is the default. -/
def sampleObserved : PutSubscriptionFilterInput :=
  { FilterName := some "f", DestinationARN := some "arn", FilterPattern := some "p",
    RoleARN := none, Distribution := some "ByLogStream" }

/-- A remote filter named `f` with another pattern. -/
def sampleModified : PutSubscriptionFilterInput :=
  { FilterName := some "f", DestinationARN := some "arn", FilterPattern := some "q",
    RoleARN := none, Distribution := some "ByLogStream" }

/-- A remote filter named `g`. -/
def sampleOther : PutSubscriptionFilterInput :=
  { FilterName := some "g", DestinationARN := some "arn", FilterPattern := some "p",
    RoleARN := none, Distribution := some "Random" }

/-- A first page with one record and a continuation token. -/
def samplePage1 : svcsdk.DescribeSubscriptionFiltersOutput :=
  { NextToken := some "t1",
    SubscriptionFilters :=
      [{ CreationTime := some 1, DestinationArn := some "arn", Distribution := some "ByLogStream",
         FilterName := some "f", FilterPattern := some "p", LogGroupName := some "lg",
         RoleArn := none }] }

/-- A second page with two records and a continuation token. -/
def samplePage2 : svcsdk.DescribeSubscriptionFiltersOutput :=
  { NextToken := some "t2",
    SubscriptionFilters :=
      [{ CreationTime := some 2, DestinationArn := some "arn", Distribution := some "Random",
         FilterName := some "g", FilterPattern := some "", LogGroupName := some "lg",
         RoleArn := some "role" },
       { CreationTime := none, DestinationArn := none, Distribution := some "Random",
         FilterName := some "h", FilterPattern := none, LogGroupName := some "lg",
         RoleArn := none }] }

/-- A last page with one record and no continuation token. -/
def samplePage3 : svcsdk.DescribeSubscriptionFiltersOutput :=
  { NextToken := none,
    SubscriptionFilters :=
      [{ CreationTime := some 3, DestinationArn := some "arn", Distribution := some "ByLogStream",
         FilterName := some "i", FilterPattern := some "p", LogGroupName := some "lg",
         RoleArn := none }] }

/-- A desired log group named `lg` with retention 7 and the filter
`sampleDesired`. -/
def sampleDesiredGroup : resource :=
  ⟨{ Spec := { Name := some "lg", RetentionDays := some 7,
               SubscriptionFilters := [some sampleDesired] },
     Status := { RetentionInDays := none } }⟩

/-- The latest view of the log group `lg`: retention 30 and two filters, one
named `f` with another pattern and one named `g`. -/
def sampleLatestGroup : resource :=
  ⟨{ Spec := { Name := some "lg", RetentionDays := some 30,
               SubscriptionFilters := [some sampleModified, some sampleOther] },
     Status := { RetentionInDays := some 30 } }⟩

/-- A desired log group named `lg` without retention and without filters. -/
def sampleEmptyGroup : resource :=
  ⟨{ Spec := { Name := some "lg", RetentionDays := none, SubscriptionFilters := [] },
     Status := { RetentionInDays := none } }⟩

/-- A resource manager whose status defaults leave the status as it is. -/
def sampleManager : resourceManager := ⟨fun status => status⟩

/-! ## Auxiliary lemmas -/

theorem equalSubscriptionFilters_total (a b : PutSubscriptionFilterInput)
    (hb : b.Distribution ≠ none) :
    equalSubscriptionFilters a b = some true ∨ equalSubscriptionFilters a b = some false := by
  obtain ⟨bd, hbd⟩ := Option.ne_none_iff_exists'.mp hb
  unfold equalSubscriptionFilters
  split
  · exact Or.inr rfl
  split
  · exact Or.inr rfl
  split
  · exact Or.inr rfl
  split
  · exact Or.inr rfl
  cases had : a.Distribution <;> simp only [hbd]
  · by_cases h : bd = defaultDistribution <;> simp [h]
  · rename_i ad
    by_cases h : ad = bd <;> simp [h]

theorem scanObserved_map_some (d : PutSubscriptionFilterInput) (hd : d.FilterName ≠ none)
    (os : List PutSubscriptionFilterInput)
    (ho : ∀ o ∈ os, o.FilterName ≠ none ∧ o.Distribution ≠ none) :
    scanObserved (some d) (os.map some) = some (!needsPut os d) := by
  obtain ⟨dn, hdn⟩ := Option.ne_none_iff_exists'.mp hd
  induction os with
  | nil => simp [scanObserved, needsPut, sameNamed]
  | cons o os ih =>
    have hoo := ho o (List.mem_cons_self _ _)
    obtain ⟨onm, honm⟩ := Option.ne_none_iff_exists'.mp hoo.1
    have ih1 := ih (fun x hx => ho x (List.mem_cons_of_mem _ hx))
    simp only [List.map_cons, scanObserved, hdn, honm]
    by_cases hname : dn = onm
    · subst hname
      have hfind : sameNamed (o :: os) d = some o := by
        simp [sameNamed, List.find?, hdn, honm]
      simp only [if_true, needsPut, hfind]
      rcases equalSubscriptionFilters_total d o hoo.2 with h | h <;> simp [h]
    · have hfind : sameNamed (o :: os) d = sameNamed os d := by
        have : ¬ (onm = dn) := fun h => hname h.symm
        simp [sameNamed, List.find?, hdn, honm, this]
      simp only [if_neg hname, ih1, needsPut, hfind]

theorem firstPass_map_some (ds os acc : List PutSubscriptionFilterInput)
    (hd : ∀ d ∈ ds, d.FilterName ≠ none)
    (ho : ∀ o ∈ os, o.FilterName ≠ none ∧ o.Distribution ≠ none) :
    firstPass (os.map some) (ds.map some) (acc.map some)
      = some ((acc ++ ds.filter (needsPut os)).map some) := by
  induction ds generalizing acc with
  | nil => simp [firstPass]
  | cons d ds ih =>
    have ih1 := fun a => ih a (fun x hx => hd x (List.mem_cons_of_mem _ hx))
    simp only [List.map_cons, firstPass,
      scanObserved_map_some d (hd d (List.mem_cons_self _ _)) os ho]
    cases hnp : needsPut os d
    · simpa [List.filter_cons, hnp] using ih1 acc
    · simpa [List.filter_cons, hnp] using ih1 (acc ++ [d])

theorem scanDesired_map_some (o : PutSubscriptionFilterInput) (ho : o.FilterName ≠ none)
    (ds : List PutSubscriptionFilterInput) (hd : ∀ d ∈ ds, d.FilterName ≠ none) :
    scanDesired (some o) (ds.map some) = some (!needsDelete ds o) := by
  obtain ⟨onm, honm⟩ := Option.ne_none_iff_exists'.mp ho
  induction ds with
  | nil => simp [scanDesired, needsDelete]
  | cons d ds ih =>
    obtain ⟨dn, hdn⟩ := Option.ne_none_iff_exists'.mp (hd d (List.mem_cons_self _ _))
    have ih1 := ih (fun x hx => hd x (List.mem_cons_of_mem _ hx))
    simp only [List.map_cons, scanDesired, honm, hdn]
    by_cases hname : onm = dn
    · simp [hname, needsDelete, honm, hdn]
    · rw [if_neg hname, ih1]
      simp [needsDelete, honm, hdn, hname]

theorem secondPass_map_some (ds os acc : List PutSubscriptionFilterInput)
    (hd : ∀ d ∈ ds, d.FilterName ≠ none) (ho : ∀ o ∈ os, o.FilterName ≠ none) :
    secondPass (ds.map some) (os.map some) (acc.map some)
      = some ((acc ++ os.filter (needsDelete ds)).map some) := by
  induction os generalizing acc with
  | nil => simp [secondPass]
  | cons o os ih =>
    have ih1 := fun a => ih a (fun x hx => ho x (List.mem_cons_of_mem _ hx))
    simp only [List.map_cons, secondPass,
      scanDesired_map_some o (ho o (List.mem_cons_self _ _)) ds hd]
    cases hnd : needsDelete ds o
    · simpa [List.filter_cons, hnd] using ih1 acc
    · simpa [List.filter_cons, hnd] using ih1 (acc ++ [o])

/-- The diff in closed form, for lists of non-nil filters with non-nil names
and non-nil observed distributions. -/
theorem compareSubscriptionFilters_map_some (ds os : List PutSubscriptionFilterInput)
    (hd : ∀ d ∈ ds, d.FilterName ≠ none)
    (ho : ∀ o ∈ os, o.FilterName ≠ none ∧ o.Distribution ≠ none) :
    compareSubscriptionFilters (ds.map some) (os.map some)
      = some ((ds.filter (needsPut os)).map some, (os.filter (needsDelete ds)).map some) := by
  have h1 := firstPass_map_some ds os [] hd ho
  have h2 := secondPass_map_some ds os [] hd (fun o h => (ho o h).1)
  simp only [List.map_nil, List.nil_append] at h1 h2
  simp [compareSubscriptionFilters, h1, h2]

theorem names_upsertByName_of_any (coll : List PutSubscriptionFilterInput)
    (f : PutSubscriptionFilterInput) :
    (coll.map (fun x => if x.FilterName = f.FilterName then f else x)).map
      (fun x => x.FilterName) = coll.map (fun x => x.FilterName) := by
  induction coll with
  | nil => rfl
  | cons x xs ih =>
    simp only [List.map_cons, ih]
    by_cases h : x.FilterName = f.FilterName
    · simp [h]
    · simp [h]

theorem mem_names_upsertByName (coll : List PutSubscriptionFilterInput)
    (f : PutSubscriptionFilterInput) (n : Option String) :
    n ∈ (upsertByName coll f).map (fun x => x.FilterName)
      ↔ n ∈ coll.map (fun x => x.FilterName) ∨ n = f.FilterName := by
  unfold upsertByName
  split
  · rename_i hany
    rw [names_upsertByName_of_any]
    constructor
    · exact Or.inl
    · rintro (h | h)
      · exact h
      · obtain ⟨x, hx, hxf⟩ := List.any_eq_true.mp hany
        exact List.mem_map.mpr ⟨x, hx, by rw [h]; exact of_decide_eq_true hxf⟩
  · simp [eq_comm]

theorem mem_names_foldl_upsertByName (toAdd coll : List PutSubscriptionFilterInput)
    (n : Option String) :
    n ∈ (toAdd.foldl upsertByName coll).map (fun x => x.FilterName)
      ↔ n ∈ coll.map (fun x => x.FilterName) ∨ n ∈ toAdd.map (fun x => x.FilterName) := by
  induction toAdd generalizing coll with
  | nil => simp
  | cons f fs ih =>
    rw [List.foldl_cons, ih, mem_names_upsertByName, List.map_cons, List.mem_cons]
    tauto

theorem mem_names_deleteNamed (names : List (Option String))
    (coll : List PutSubscriptionFilterInput) (n : Option String) :
    n ∈ (deleteNamed names coll).map (fun x => x.FilterName)
      ↔ n ∈ coll.map (fun x => x.FilterName) ∧ n ∉ names := by
  simp only [deleteNamed, List.mem_map, List.mem_filter, decide_eq_true_eq]
  constructor
  · rintro ⟨x, ⟨hx, hnot⟩, rfl⟩
    exact ⟨⟨x, hx, rfl⟩, hnot⟩
  · rintro ⟨⟨x, hx, rfl⟩, hnot⟩
    exact ⟨x, ⟨hx, hnot⟩, rfl⟩

theorem sameNamed_some (os : List PutSubscriptionFilterInput)
    (d o : PutSubscriptionFilterInput) (h : sameNamed os d = some o) :
    o ∈ os ∧ o.FilterName = d.FilterName := by
  unfold sameNamed at h
  exact ⟨List.mem_of_find?_eq_some h, by simpa using List.find?_some h⟩

theorem sameNamed_first (before after : List PutSubscriptionFilterInput)
    (d o : PutSubscriptionFilterInput) (hname : d.FilterName = o.FilterName)
    (hbefore : ∀ x ∈ before, x.FilterName ≠ d.FilterName) :
    sameNamed (before ++ o :: after) d = some o := by
  induction before with
  | nil => simp [sameNamed, List.find?, hname]
  | cons x xs ih =>
    have hx := hbefore x (List.mem_cons_self _ _)
    have ih1 := ih (fun y hy => hbefore y (List.mem_cons_of_mem _ hy))
    simpa [sameNamed, List.find?, hx] using ih1

theorem equalStrings_refl (a : Option String) : equalStrings a a = true := by
  cases a <;> simp [equalStrings]

theorem equalStrings_false_of_getD_ne (a b : Option String)
    (h : a.getD "" ≠ b.getD "") : equalStrings a b = false := by
  cases a <;> cases b <;> simp_all [equalStrings, eq_comm]

theorem equalSubscriptionFilters_of_pattern_ne (d o : PutSubscriptionFilterInput)
    (hpat : d.FilterPattern.getD "" ≠ o.FilterPattern.getD "") :
    equalSubscriptionFilters d o = some false := by
  unfold equalSubscriptionFilters
  simp [equalStrings_false_of_getD_ne _ _ hpat]

theorem equalSubscriptionFilters_of_default (d o : PutSubscriptionFilterInput)
    (hname : d.FilterName = o.FilterName) (hdest : d.DestinationARN = o.DestinationARN)
    (hpat : d.FilterPattern = o.FilterPattern) (hrole : d.RoleARN = o.RoleARN)
    (hdd : d.Distribution = none) (hod : o.Distribution = some "ByLogStream") :
    equalSubscriptionFilters d o = some true := by
  unfold equalSubscriptionFilters
  simp [hname, hdest, hpat, hrole, hdd, hod, equalStrings_refl, defaultDistribution]

theorem exists_map_some {α : Type} (l : List (Option α)) (h : ∀ x ∈ l, x ≠ none) :
    ∃ vs : List α, l = vs.map some := by
  induction l with
  | nil => exact ⟨[], rfl⟩
  | cons x xs ih =>
    obtain ⟨vs, hvs⟩ := ih (fun y hy => h y (List.mem_cons_of_mem _ hy))
    obtain ⟨v, hv⟩ := Option.ne_none_iff_exists'.mp (h x (List.mem_cons_self _ _))
    exact ⟨v :: vs, by simp [hv, hvs]⟩

/-! ## The filter diff -/

/-- Claim C1 (diff completeness).  For lists of non-nil filters with non-nil
names and non-nil observed distributions, `compareSubscriptionFilters` returns
a pair `(toAdd, toRemove)`, and the collection obtained from `observed` by
deleting the names of `toRemove` and then upserting the filters of `toAdd` has
exactly the filter names of `desired`. -/
theorem compareSubscriptionFilters_diff_complete (ds os : List PutSubscriptionFilterInput)
    (hd : ∀ d ∈ ds, d.FilterName ≠ none)
    (ho : ∀ o ∈ os, o.FilterName ≠ none ∧ o.Distribution ≠ none) :
    ∃ toAdd toRemove,
      compareSubscriptionFilters (ds.map some) (os.map some)
        = some (toAdd.map some, toRemove.map some) ∧
      ∀ n, n ∈ (applyDiff os toAdd toRemove).map (fun f => f.FilterName)
        ↔ n ∈ ds.map (fun f => f.FilterName) := by
  refine ⟨_, _, compareSubscriptionFilters_map_some ds os hd ho, fun n => ?_⟩
  unfold applyDiff
  rw [mem_names_foldl_upsertByName, mem_names_deleteNamed]
  constructor
  · rintro (⟨hn, hnot⟩ | hn)
    · by_contra hnd
      apply hnot
      obtain ⟨o, hmem, rfl⟩ := List.mem_map.mp hn
      refine List.mem_map.mpr ⟨o, List.mem_filter.mpr ⟨hmem, ?_⟩, rfl⟩
      simpa [needsDelete] using hnd
    · obtain ⟨d, hmem, rfl⟩ := List.mem_map.mp hn
      exact List.mem_map.mpr ⟨d, (List.mem_filter.mp hmem).1, rfl⟩
  · intro hn
    obtain ⟨d, hmem, rfl⟩ := List.mem_map.mp hn
    cases hnp : needsPut os d
    · left
      have hsn : ∃ o, sameNamed os d = some o := by
        unfold needsPut at hnp
        cases hs : sameNamed os d
        · simp [hs] at hnp
        · exact ⟨_, rfl⟩
      obtain ⟨o, hso⟩ := hsn
      obtain ⟨homem, honame⟩ := sameNamed_some os d o hso
      refine ⟨List.mem_map.mpr ⟨o, homem, honame⟩, ?_⟩
      intro hrem
      obtain ⟨x, hx, hxn⟩ := List.mem_map.mp hrem
      have hdel := (List.mem_filter.mp hx).2
      simp only [needsDelete, decide_eq_true_eq] at hdel
      apply hdel
      rw [hxn]
      exact hn
    · right
      exact List.mem_map.mpr ⟨d, List.mem_filter.mpr ⟨hmem, hnp⟩, rfl⟩

/-- Witness of C1: one filter to keep, one to put, one to delete. -/
theorem compareSubscriptionFilters_diff_complete_witness :
    (∀ d ∈ [(⟨some "arn", none, some "keep", some "", none⟩ : PutSubscriptionFilterInput),
        ⟨some "arn", none, some "new", some "", none⟩], d.FilterName ≠ none) ∧
    (∀ o ∈ [(⟨some "arn", some "ByLogStream", some "keep", some "", none⟩ :
          PutSubscriptionFilterInput),
        ⟨some "arn", some "Random", some "old", some "", none⟩],
        o.FilterName ≠ none ∧ o.Distribution ≠ none) ∧
    ∃ toAdd toRemove,
      compareSubscriptionFilters
        ([(⟨some "arn", none, some "keep", some "", none⟩ : PutSubscriptionFilterInput),
          ⟨some "arn", none, some "new", some "", none⟩].map some)
        ([(⟨some "arn", some "ByLogStream", some "keep", some "", none⟩ :
            PutSubscriptionFilterInput),
          ⟨some "arn", some "Random", some "old", some "", none⟩].map some)
        = some (toAdd.map some, toRemove.map some) ∧
      ∀ n, n ∈ (applyDiff
          [(⟨some "arn", some "ByLogStream", some "keep", some "", none⟩ :
            PutSubscriptionFilterInput),
           ⟨some "arn", some "Random", some "old", some "", none⟩] toAdd toRemove).map
            (fun f => f.FilterName)
        ↔ n ∈ [(⟨some "arn", none, some "keep", some "", none⟩ : PutSubscriptionFilterInput),
          ⟨some "arn", none, some "new", some "", none⟩].map (fun f => f.FilterName) :=
  ⟨by decide, by decide,
    compareSubscriptionFilters_diff_complete _ _ (by decide) (by decide)⟩

/-- Claim C2, the code at the failing input: a nil left operand equals an empty
right operand, an empty left operand does not equal a nil right operand; hence
`equalSubscriptionFilters` accepts `DestinationARN = nil` against `""` and
rejects `""` against `nil`. -/
theorem equalStrings_empty_nil_one_sided :
    equalStrings none (some "") = true ∧ equalStrings (some "") none = false ∧
    equalSubscriptionFilters
      ⟨none, some "ByLogStream", some "f", some "p", none⟩
      ⟨some "", some "ByLogStream", some "f", some "p", none⟩ = some true ∧
    equalSubscriptionFilters
      ⟨some "", some "ByLogStream", some "f", some "p", none⟩
      ⟨none, some "ByLogStream", some "f", some "p", none⟩ = some false := by
  decide

/-- Claim C3 as stated fails.  First input: the observed list holds two
filters named `f`; the desired filter agrees with the second one up to the
nil distribution, it is compared with the first one only and is put again.
Second input: another observed filter has a nil distribution, the comparison
with its desired namesake dereferences it and nothing is returned. -/
theorem equivalent_skip_counterexample :
    compareSubscriptionFilters
      [some ⟨some "arn", none, some "f", some "p", none⟩]
      [some ⟨some "arn", some "ByLogStream", some "f", some "q", none⟩,
       some ⟨some "arn", some "ByLogStream", some "f", some "p", none⟩]
      = some ([some ⟨some "arn", none, some "f", some "p", none⟩], []) ∧
    compareSubscriptionFilters
      [some ⟨some "arn", none, some "f", some "p", none⟩,
       some ⟨some "arn", none, some "g", some "p", none⟩]
      [some ⟨some "arn", some "ByLogStream", some "f", some "p", none⟩,
       some ⟨some "arn", none, some "g", some "p", none⟩]
      = none := by
  decide

/-- Claim C3, amended (equivalence skip).  For lists of non-nil filters with
non-nil names and non-nil observed distributions: if `d` is a desired filter
and `o` is the first observed filter that carries the name of `d`, with
identical `DestinationARN`, `FilterPattern` and `RoleARN`, `d.Distribution`
nil and `o.Distribution = "ByLogStream"`, then the diff is returned, `toAdd`
does not contain `d` and `toRemove` does not contain `o`. -/
theorem equivalent_skip (ds before after : List PutSubscriptionFilterInput)
    (d o : PutSubscriptionFilterInput)
    (hd : ∀ x ∈ ds, x.FilterName ≠ none)
    (ho : ∀ x ∈ before ++ o :: after, x.FilterName ≠ none ∧ x.Distribution ≠ none)
    (hmem : d ∈ ds)
    (hfirst : ∀ x ∈ before, x.FilterName ≠ d.FilterName)
    (hname : d.FilterName = o.FilterName) (hdest : d.DestinationARN = o.DestinationARN)
    (hpat : d.FilterPattern = o.FilterPattern) (hrole : d.RoleARN = o.RoleARN)
    (hdd : d.Distribution = none) (hod : o.Distribution = some "ByLogStream") :
    ∃ toAdd toRemove,
      compareSubscriptionFilters (ds.map some) ((before ++ o :: after).map some)
        = some (toAdd, toRemove) ∧
      some d ∉ toAdd ∧ some o ∉ toRemove := by
  refine ⟨_, _, compareSubscriptionFilters_map_some ds _ hd ho, ?_, ?_⟩
  · intro h
    obtain ⟨x, hx, hxd⟩ := List.mem_map.mp h
    have hxd1 : x = d := Option.some.inj hxd
    subst hxd1
    have hnp := (List.mem_filter.mp hx).2
    simp [needsPut, sameNamed_first before after x o hname hfirst,
      equalSubscriptionFilters_of_default x o hname hdest hpat hrole hdd hod] at hnp
  · intro h
    obtain ⟨x, hx, hxo⟩ := List.mem_map.mp h
    have hxo1 : x = o := Option.some.inj hxo
    subst hxo1
    have hnd := (List.mem_filter.mp hx).2
    simp only [needsDelete, decide_eq_true_eq] at hnd
    exact hnd (List.mem_map.mpr ⟨d, hmem, hname⟩)

/-- Witness of the amended C3: `sampleObserved` follows a filter of another
name in the observed list. -/
theorem equivalent_skip_witness :
    ∃ toAdd toRemove,
      compareSubscriptionFilters ([sampleDesired].map some)
        (([sampleOther] ++ sampleObserved :: []).map some) = some (toAdd, toRemove) ∧
      some sampleDesired ∉ toAdd ∧ some sampleObserved ∉ toRemove :=
  equivalent_skip [sampleDesired] [sampleOther] [] sampleDesired sampleObserved
    (by decide) (by decide) (by decide) (by decide) rfl rfl rfl rfl rfl rfl

/-- Claim C4 as stated fails.  First input: the patterns differ as nil and
`""`, which `equalStrings` takes as equal, and nothing is put.  Second input:
the observed list holds two filters named `f`; the desired filter equals the
first and differs in pattern from the second, and nothing is put.  Third
input: a desired filter has a nil name and nothing is returned. -/
theorem modification_readd_counterexample :
    compareSubscriptionFilters
      [some ⟨some "arn", some "Random", some "f", none, none⟩]
      [some ⟨some "arn", some "Random", some "f", some "", none⟩]
      = some ([], []) ∧
    compareSubscriptionFilters
      [some ⟨some "arn", some "Random", some "f", some "p", none⟩]
      [some ⟨some "arn", some "Random", some "f", some "p", none⟩,
       some ⟨some "arn", some "Random", some "f", some "q", none⟩]
      = some ([], []) ∧
    compareSubscriptionFilters
      [some ⟨some "arn", some "Random", some "f", some "p", none⟩,
       some ⟨some "arn", some "Random", none, some "p", none⟩]
      [some ⟨some "arn", some "Random", some "f", some "q", none⟩]
      = none := by
  decide

/-- Claim C4, amended (modification re-add).  For lists of non-nil filters
with non-nil names and non-nil observed distributions: if `d` is a desired
filter and `o` is the first observed filter that carries the name of `d`, and
their `FilterPattern` values differ once a nil pattern is read as the empty
string, then the diff is returned, `toAdd` contains `d` and `toRemove`
contains no filter named as `d`. -/
theorem modification_readd (ds before after : List PutSubscriptionFilterInput)
    (d o : PutSubscriptionFilterInput)
    (hd : ∀ x ∈ ds, x.FilterName ≠ none)
    (ho : ∀ x ∈ before ++ o :: after, x.FilterName ≠ none ∧ x.Distribution ≠ none)
    (hmem : d ∈ ds)
    (hfirst : ∀ x ∈ before, x.FilterName ≠ d.FilterName)
    (hname : d.FilterName = o.FilterName)
    (hpat : d.FilterPattern.getD "" ≠ o.FilterPattern.getD "") :
    ∃ toAdd toRemove,
      compareSubscriptionFilters (ds.map some) ((before ++ o :: after).map some)
        = some (toAdd, toRemove) ∧
      some d ∈ toAdd ∧ ∀ f, some f ∈ toRemove → f.FilterName ≠ d.FilterName := by
  refine ⟨_, _, compareSubscriptionFilters_map_some ds _ hd ho, ?_, ?_⟩
  · refine List.mem_map.mpr ⟨d, List.mem_filter.mpr ⟨hmem, ?_⟩, rfl⟩
    simp [needsPut, sameNamed_first before after d o hname hfirst,
      equalSubscriptionFilters_of_pattern_ne d o hpat]
  · intro f h hfd
    obtain ⟨x, hx, hxf⟩ := List.mem_map.mp h
    have hxf1 : x = f := Option.some.inj hxf
    subst hxf1
    have hnd := (List.mem_filter.mp hx).2
    simp only [needsDelete, decide_eq_true_eq] at hnd
    exact hnd (List.mem_map.mpr ⟨d, hmem, hfd.symm⟩)

/-- Witness of the amended C4: `sampleModified` differs from `sampleDesired`
in the pattern. -/
theorem modification_readd_witness :
    ∃ toAdd toRemove,
      compareSubscriptionFilters ([sampleDesired].map some)
        (([sampleOther] ++ sampleModified :: []).map some) = some (toAdd, toRemove) ∧
      some sampleDesired ∈ toAdd ∧
      ∀ f, some f ∈ toRemove → f.FilterName ≠ sampleDesired.FilterName :=
  modification_readd [sampleDesired] [sampleOther] [] sampleDesired sampleModified
    (by decide) (by decide) (by decide) (by decide) rfl (by decide)

/-- Claim C5 (comparator, distribution rule).  When the four string fields
are pairwise equal under `equalStrings`, `equalSubscriptionFilters a b` returns
true exactly when `a.Distribution` is nil and `b.Distribution` is
`"ByLogStream"`, or `a.Distribution` is not nil and equals `b.Distribution`;
when one of the four string fields is not equal under `equalStrings` it
returns false. -/
theorem equalSubscriptionFilters_distribution_rule (a b : PutSubscriptionFilterInput) :
    (equalStrings a.FilterName b.FilterName = true ∧
      equalStrings a.DestinationARN b.DestinationARN = true ∧
      equalStrings a.FilterPattern b.FilterPattern = true ∧
      equalStrings a.RoleARN b.RoleARN = true →
      (equalSubscriptionFilters a b = some true ↔
        (a.Distribution = none ∧ b.Distribution = some "ByLogStream") ∨
        (a.Distribution ≠ none ∧ a.Distribution = b.Distribution))) ∧
    (equalStrings a.FilterName b.FilterName = false ∨
      equalStrings a.DestinationARN b.DestinationARN = false ∨
      equalStrings a.FilterPattern b.FilterPattern = false ∨
      equalStrings a.RoleARN b.RoleARN = false →
      equalSubscriptionFilters a b = some false) := by
  constructor
  · rintro ⟨h1, h2, h3, h4⟩
    unfold equalSubscriptionFilters
    cases ha : a.Distribution <;> cases hb : b.Distribution <;>
      simp [h1, h2, h3, h4, defaultDistribution]
  · intro h
    unfold equalSubscriptionFilters
    rcases h with h | h | h | h <;> simp [h]

/-- Witness of C5: the default distribution against an unset one, and a
mismatch of the pattern. -/
theorem equalSubscriptionFilters_distribution_rule_witness :
    (equalSubscriptionFilters sampleDesired sampleObserved = some true ↔
      (sampleDesired.Distribution = none ∧ sampleObserved.Distribution = some "ByLogStream") ∨
      (sampleDesired.Distribution ≠ none ∧
        sampleDesired.Distribution = sampleObserved.Distribution)) ∧
    equalSubscriptionFilters sampleDesired sampleModified = some false :=
  ⟨(equalSubscriptionFilters_distribution_rule sampleDesired sampleObserved).1 (by decide),
   (equalSubscriptionFilters_distribution_rule sampleDesired sampleModified).2
     (Or.inr (Or.inr (Or.inl (by decide))))⟩

/-- Claim C6 (characterisation of `toAdd`).  For lists of non-nil filters with
non-nil names and non-nil observed distributions, the diff is returned and its
`toAdd` is the sub-sequence of `desired`, in order, of the filters `d` for
which no observed filter carries the name of `d`, or the first observed filter
of that name is not equivalent to `d`. -/
theorem toAdd_characterisation (ds os : List PutSubscriptionFilterInput)
    (hd : ∀ d ∈ ds, d.FilterName ≠ none)
    (ho : ∀ o ∈ os, o.FilterName ≠ none ∧ o.Distribution ≠ none) :
    ∃ toRemove,
      compareSubscriptionFilters (ds.map some) (os.map some)
        = some ((ds.filter (fun d =>
            match os.find? (fun o => decide (o.FilterName = d.FilterName)) with
            | none => true
            | some o => decide (equalSubscriptionFilters d o = some false))).map some,
          toRemove) :=
  ⟨_, compareSubscriptionFilters_map_some ds os hd ho⟩

/-- Witness of C6: of three desired filters the first is equivalent to its
observed namesake, the second is modified, the third is new. -/
theorem toAdd_characterisation_witness :
    ∃ toRemove,
      compareSubscriptionFilters
        ([sampleDesired, { sampleOther with FilterPattern := some "changed" },
          { sampleOther with FilterName := some "h" }].map some)
        ([sampleObserved, sampleOther].map some)
        = some (([sampleDesired, { sampleOther with FilterPattern := some "changed" },
            { sampleOther with FilterName := some "h" }].filter (fun d =>
            match [sampleObserved, sampleOther].find?
              (fun o => decide (o.FilterName = d.FilterName)) with
            | none => true
            | some o => decide (equalSubscriptionFilters d o = some false))).map some,
          toRemove) :=
  toAdd_characterisation
    [sampleDesired, { sampleOther with FilterPattern := some "changed" },
      { sampleOther with FilterName := some "h" }]
    [sampleObserved, sampleOther] (by decide) (by decide)

/-- Claim C7 as stated fails: all names are non-nil, the observed filter has a
nil distribution and agrees with its desired namesake on the four string
fields; the first pass dereferences the nil distribution and no `toRemove` is
returned. -/
theorem toRemove_characterisation_counterexample :
    (∀ d ∈ [sampleDesired], d.FilterName ≠ none) ∧
    (∀ o ∈ [{ sampleObserved with Distribution := none }], o.FilterName ≠ none) ∧
    compareSubscriptionFilters ([sampleDesired].map some)
      ([{ sampleObserved with Distribution := none }].map some) = none := by
  decide

/-- Claim C7, amended (characterisation of `toRemove`).  For lists of non-nil
filters with non-nil names and non-nil observed distributions, the diff is
returned and its `toRemove` is the sub-sequence of `observed`, in order, of the
filters whose name is the name of no desired filter. -/
theorem toRemove_characterisation (ds os : List PutSubscriptionFilterInput)
    (hd : ∀ d ∈ ds, d.FilterName ≠ none)
    (ho : ∀ o ∈ os, o.FilterName ≠ none ∧ o.Distribution ≠ none) :
    ∃ toAdd,
      compareSubscriptionFilters (ds.map some) (os.map some)
        = some (toAdd,
          (os.filter (fun o =>
            decide (o.FilterName ∉ ds.map (fun d => d.FilterName)))).map some) :=
  ⟨_, compareSubscriptionFilters_map_some ds os hd ho⟩

/-- Witness of the amended C7: the observed filter named `g` has no desired
namesake, the one named `f` has one with another pattern. -/
theorem toRemove_characterisation_witness :
    ∃ toAdd,
      compareSubscriptionFilters ([sampleDesired].map some)
        ([sampleOther, sampleModified].map some)
        = some (toAdd,
          ([sampleOther, sampleModified].filter (fun o =>
            decide (o.FilterName ∉ [sampleDesired].map (fun d => d.FilterName)))).map some) :=
  toRemove_characterisation [sampleDesired] [sampleOther, sampleModified]
    (by decide) (by decide)

/-! ## Retention -/

/-- Claim C8 (retention branch).  Whatever the outcome `err` of the next
remote call, `updateRetentionPeriod` issues exactly one call and returns
`err`: `PutRetentionPolicy` with the retention value and the name of the
resource when `Spec.RetentionDays` is set and not zero, `DeleteRetentionPolicy`
with the name when it is nil or zero. -/
theorem updateRetentionPeriod_single_call (desired : resource) (err : Option Err)
    (rest : List (Option Err)) (calls : List Call) (metrics : List APICallRecord) :
    (∀ days : Int, desired.ko.Spec.RetentionDays = some days → days ≠ 0 →
      updateRetentionPeriod desired ⟨err :: rest, calls, metrics⟩
        = some (err,
            ⟨rest,
             calls ++ [Call.PutRetentionPolicy
               { LogGroupName := desired.ko.Spec.Name, RetentionInDays := some days }],
             metrics ++ [⟨"UPDATE", "PutRetentionPolicy", err⟩]⟩)) ∧
    (desired.ko.Spec.RetentionDays = none ∨ desired.ko.Spec.RetentionDays = some 0 →
      updateRetentionPeriod desired ⟨err :: rest, calls, metrics⟩
        = some (err,
            ⟨rest,
             calls ++ [Call.DeleteRetentionPolicy { LogGroupName := desired.ko.Spec.Name }],
             metrics ++ [⟨"UPDATE", "DeleteRetentionPolicy", err⟩]⟩)) := by
  constructor
  · intro days hdays hne
    cases err <;> simp [updateRetentionPeriod, hdays, hne]
  · rintro (h | h) <;> cases err <;> simp [updateRetentionPeriod, h]

/-- Witness of C8: retention 7 on a failing remote, retention nil and
retention 0 on a succeeding one. -/
theorem updateRetentionPeriod_single_call_witness :
    updateRetentionPeriod ⟨⟨⟨some "lg", some 7, []⟩, ⟨none⟩⟩⟩ ⟨[some ⟨"denied"⟩], [], []⟩
      = some (some ⟨"denied"⟩,
          ⟨[], [] ++ [Call.PutRetentionPolicy
              { LogGroupName := some "lg", RetentionInDays := some 7 }],
            [] ++ [⟨"UPDATE", "PutRetentionPolicy", some ⟨"denied"⟩⟩]⟩) ∧
    updateRetentionPeriod ⟨⟨⟨some "lg", none, []⟩, ⟨none⟩⟩⟩ ⟨[none], [], []⟩
      = some (none,
          ⟨[], [] ++ [Call.DeleteRetentionPolicy { LogGroupName := some "lg" }],
            [] ++ [⟨"UPDATE", "DeleteRetentionPolicy", none⟩]⟩) ∧
    updateRetentionPeriod ⟨⟨⟨some "lg", some 0, []⟩, ⟨none⟩⟩⟩ ⟨[none], [], []⟩
      = some (none,
          ⟨[], [] ++ [Call.DeleteRetentionPolicy { LogGroupName := some "lg" }],
            [] ++ [⟨"UPDATE", "DeleteRetentionPolicy", none⟩]⟩) :=
  ⟨(updateRetentionPeriod_single_call ⟨⟨⟨some "lg", some 7, []⟩, ⟨none⟩⟩⟩
      (some ⟨"denied"⟩) [] [] []).1 7 rfl (by decide),
   (updateRetentionPeriod_single_call ⟨⟨⟨some "lg", none, []⟩, ⟨none⟩⟩⟩
      none [] [] []).2 (Or.inl rfl),
   (updateRetentionPeriod_single_call ⟨⟨⟨some "lg", some 0, []⟩, ⟨none⟩⟩⟩
      none [] [] []).2 (Or.inr rfl)⟩

/-! ## Listing the remote filters -/

theorem foldl_append_fromRemote (records : List svcsdk.SubscriptionFilter)
    (acc : List (Option PutSubscriptionFilterInput)) :
    records.foldl (fun acc subscriptionFilter => acc ++ [some (fromRemote subscriptionFilter)])
        acc
      = acc ++ records.map (fun r => some (fromRemote r)) := by
  induction records generalizing acc with
  | nil => simp
  | cons r rs ih => simp [List.foldl_cons, ih]

theorem describeLoop_drain (name : Option String)
    (init : List svcsdk.DescribeSubscriptionFiltersOutput)
    (last : svcsdk.DescribeSubscriptionFiltersOutput) (rest : List DescribeResponse)
    (hinit : ∀ p ∈ init, p.NextToken ≠ none) (hlast : last.NextToken = none)
    (token : Option String) (acc : List (Option PutSubscriptionFilterInput))
    (calls : List Call) (metrics : List APICallRecord) :
    describeLoop name ((init ++ [last]).map Except.ok ++ rest) token acc calls metrics
      = some ((some (acc ++ ((init ++ [last]).map (fun p => p.SubscriptionFilters)).flatten.map
            (fun r => some (fromRemote r))), none),
          ⟨rest,
           calls ++ (token :: init.map (fun p => p.NextToken)).map (fun t =>
             Call.DescribeSubscriptionFilters { LogGroupName := name, NextToken := t }),
           metrics ++ List.replicate (init.length + 1)
             ⟨"READ_MANY", "DescribeSubscriptionFilters", none⟩⟩) := by
  induction init generalizing token acc calls metrics with
  | nil =>
    simp [describeLoop, hlast, foldl_append_fromRemote]
  | cons p ps ih =>
    obtain ⟨t, ht⟩ := Option.ne_none_iff_exists'.mp (hinit p (List.mem_cons_self _ _))
    have ih1 := ih (fun q hq => hinit q (List.mem_cons_of_mem _ hq))
    simp only [List.cons_append, List.map_cons, describeLoop, ht, foldl_append_fromRemote]
    refine (ih1 _ _ _ _).trans ?_
    simp [List.replicate_succ, List.append_assoc]

theorem describeLoop_abort (name : Option String)
    (pre : List svcsdk.DescribeSubscriptionFiltersOutput) (e : Err)
    (rest : List DescribeResponse) (hpre : ∀ p ∈ pre, p.NextToken ≠ none)
    (token : Option String) (acc : List (Option PutSubscriptionFilterInput))
    (calls : List Call) (metrics : List APICallRecord) :
    describeLoop name (pre.map Except.ok ++ Except.error e :: rest) token acc calls metrics
      = some ((none, some e),
          ⟨rest,
           calls ++ (token :: pre.map (fun p => p.NextToken)).map (fun t =>
             Call.DescribeSubscriptionFilters { LogGroupName := name, NextToken := t }),
           metrics ++ (List.replicate pre.length
             ⟨"READ_MANY", "DescribeSubscriptionFilters", none⟩ ++
             [⟨"READ_MANY", "DescribeSubscriptionFilters", some e⟩])⟩) := by
  induction pre generalizing token acc calls metrics with
  | nil => simp [describeLoop]
  | cons p ps ih =>
    obtain ⟨t, ht⟩ := Option.ne_none_iff_exists'.mp (hpre p (List.mem_cons_self _ _))
    have ih1 := ih (fun q hq => hpre q (List.mem_cons_of_mem _ hq))
    simp only [List.cons_append, List.map_cons, describeLoop, ht]
    refine (ih1 _ _ _ _).trans ?_
    simp [List.replicate_succ, List.append_assoc]

/-- Claim C9 (pagination drain).  When the remote answers with the pages
`init ++ [last]`, every page of `init` carrying a continuation token and
`last` carrying none, `getSubscriptionFilters` issues one
`DescribeSubscriptionFilters` call per page, the first without a token and
each later one with the token of the page before, and returns without error
the records of all pages in page order, each mapped field for field. -/
theorem getSubscriptionFilters_drains_pages (name : Option String)
    (init : List svcsdk.DescribeSubscriptionFiltersOutput)
    (last : svcsdk.DescribeSubscriptionFiltersOutput) (rest : List DescribeResponse)
    (calls : List Call) (metrics : List APICallRecord)
    (hinit : ∀ p ∈ init, p.NextToken ≠ none) (hlast : last.NextToken = none) :
    getSubscriptionFilters name ⟨(init ++ [last]).map Except.ok ++ rest, calls, metrics⟩
      = some ((some (((init ++ [last]).map (fun p => p.SubscriptionFilters)).flatten.map
            (fun r => some
              { FilterName := r.FilterName, DestinationARN := r.DestinationArn,
                FilterPattern := r.FilterPattern, RoleARN := r.RoleArn,
                Distribution := r.Distribution })), none),
          ⟨rest,
           calls ++ (none :: init.map (fun p => p.NextToken)).map (fun t =>
             Call.DescribeSubscriptionFilters { LogGroupName := name, NextToken := t }),
           metrics ++ List.replicate (init.length + 1)
             ⟨"READ_MANY", "DescribeSubscriptionFilters", none⟩⟩) := by
  unfold getSubscriptionFilters
  exact describeLoop_drain name init last rest hinit hlast none [] calls metrics

/-- Witness of C9: three pages, with tokens on the first two only. -/
theorem getSubscriptionFilters_drains_pages_witness :
    getSubscriptionFilters (some "lg")
        ⟨([samplePage1, samplePage2] ++ [samplePage3]).map Except.ok ++ [], [], []⟩
      = some ((some ((([samplePage1, samplePage2] ++ [samplePage3]).map
            (fun p => p.SubscriptionFilters)).flatten.map
            (fun r => some
              { FilterName := r.FilterName, DestinationARN := r.DestinationArn,
                FilterPattern := r.FilterPattern, RoleARN := r.RoleArn,
                Distribution := r.Distribution })), none),
          ⟨[],
           [] ++ (none :: [samplePage1, samplePage2].map (fun p => p.NextToken)).map (fun t =>
             Call.DescribeSubscriptionFilters { LogGroupName := some "lg", NextToken := t }),
           [] ++ List.replicate ([samplePage1, samplePage2].length + 1)
             ⟨"READ_MANY", "DescribeSubscriptionFilters", none⟩⟩) :=
  getSubscriptionFilters_drains_pages (some "lg") [samplePage1, samplePage2] samplePage3
    [] [] [] (by decide) rfl

/-- Claim C10 (pagination failure).  When the remote answers the pages `pre`,
each with a continuation token, and then an error `e`, `getSubscriptionFilters`
issues one call per page of `pre` and one more, and returns the nil slice and
the error `e`, whatever records the pages of `pre` held. -/
theorem getSubscriptionFilters_error_discards (name : Option String)
    (pre : List svcsdk.DescribeSubscriptionFiltersOutput) (e : Err)
    (rest : List DescribeResponse) (calls : List Call) (metrics : List APICallRecord)
    (hpre : ∀ p ∈ pre, p.NextToken ≠ none) :
    getSubscriptionFilters name ⟨pre.map Except.ok ++ Except.error e :: rest, calls, metrics⟩
      = some ((none, some e),
          ⟨rest,
           calls ++ (none :: pre.map (fun p => p.NextToken)).map (fun t =>
             Call.DescribeSubscriptionFilters { LogGroupName := name, NextToken := t }),
           metrics ++ (List.replicate pre.length
             ⟨"READ_MANY", "DescribeSubscriptionFilters", none⟩ ++
             [⟨"READ_MANY", "DescribeSubscriptionFilters", some e⟩])⟩) := by
  unfold getSubscriptionFilters
  exact describeLoop_abort name pre e rest hpre none [] calls metrics

/-- Witness of C10: two pages with records, then an error on the third call. -/
theorem getSubscriptionFilters_error_discards_witness :
    getSubscriptionFilters (some "lg")
        ⟨[samplePage1, samplePage2].map Except.ok ++ Except.error ⟨"throttled"⟩ ::
          [Except.ok samplePage3], [], []⟩
      = some ((none, some ⟨"throttled"⟩),
          ⟨[Except.ok samplePage3],
           [] ++ (none :: [samplePage1, samplePage2].map (fun p => p.NextToken)).map (fun t =>
             Call.DescribeSubscriptionFilters { LogGroupName := some "lg", NextToken := t }),
           [] ++ (List.replicate [samplePage1, samplePage2].length
             ⟨"READ_MANY", "DescribeSubscriptionFilters", none⟩ ++
             [⟨"READ_MANY", "DescribeSubscriptionFilters", some ⟨"throttled"⟩⟩])⟩) :=
  getSubscriptionFilters_error_discards (some "lg") [samplePage1, samplePage2] ⟨"throttled"⟩
    [Except.ok samplePage3] [] [] (by decide)

/-! ## Safety of the diff -/

/-- Claim C19 (no nil dereference in the diff).  When every entry of both
lists is non-nil, every filter name is non-nil and every observed distribution
is non-nil, `compareSubscriptionFilters` returns a diff: the nil-dereference
branch of the embedding is not taken, whatever the other fields of the desired
filters are. -/
theorem compareSubscriptionFilters_no_nil_dereference
    (desired observed : List (Option PutSubscriptionFilterInput))
    (hd : ∀ x ∈ desired, ∃ f, x = some f ∧ f.FilterName ≠ none)
    (ho : ∀ x ∈ observed, ∃ f, x = some f ∧ f.FilterName ≠ none ∧ f.Distribution ≠ none) :
    ∃ toAdd toRemove, compareSubscriptionFilters desired observed = some (toAdd, toRemove) := by
  obtain ⟨ds, hds⟩ := exists_map_some desired (fun x hx => by
    obtain ⟨f, hf, _⟩ := hd x hx
    simp [hf])
  obtain ⟨os, hos⟩ := exists_map_some observed (fun x hx => by
    obtain ⟨f, hf, _⟩ := ho x hx
    simp [hf])
  subst hds
  subst hos
  refine ⟨_, _, compareSubscriptionFilters_map_some ds os ?_ ?_⟩
  · intro d hmem
    obtain ⟨f, hf, hname⟩ := hd (some d) (List.mem_map.mpr ⟨d, hmem, rfl⟩)
    rw [Option.some.inj hf]
    exact hname
  · intro o hmem
    obtain ⟨f, hf, hname⟩ := ho (some o) (List.mem_map.mpr ⟨o, hmem, rfl⟩)
    rw [Option.some.inj hf]
    exact hname

/-- Witness of C19: the desired filter leaves every field but the name nil. -/
theorem compareSubscriptionFilters_no_nil_dereference_witness :
    ∃ toAdd toRemove,
      compareSubscriptionFilters
        [some ⟨none, none, some "f", none, none⟩, some sampleDesired]
        [some sampleObserved, some sampleOther] = some (toAdd, toRemove) :=
  compareSubscriptionFilters_no_nil_dereference
    [some ⟨none, none, some "f", none, none⟩, some sampleDesired]
    [some sampleObserved, some sampleOther]
    (by simp [sampleDesired]) (by simp [sampleObserved, sampleOther])

/-- Claim C20 (no filter is removed and added in one pass).  For lists of
non-nil filters with non-nil names and non-nil observed distributions, the diff
is returned, no name of `toRemove` is the name of a desired filter, and no name
of `toRemove` is a name of `toAdd`. -/
theorem toRemove_toAdd_disjoint (ds os : List PutSubscriptionFilterInput)
    (hd : ∀ d ∈ ds, d.FilterName ≠ none)
    (ho : ∀ o ∈ os, o.FilterName ≠ none ∧ o.Distribution ≠ none) :
    ∃ toAdd toRemove : List PutSubscriptionFilterInput,
      compareSubscriptionFilters (ds.map some) (os.map some)
        = some (toAdd.map some, toRemove.map some) ∧
      (∀ r ∈ toRemove, r.FilterName ∉ ds.map (fun d => d.FilterName)) ∧
      (∀ r ∈ toRemove, ∀ a ∈ toAdd, r.FilterName ≠ a.FilterName) := by
  refine ⟨_, _, compareSubscriptionFilters_map_some ds os hd ho, ?_, ?_⟩
  · intro r hr
    simpa [needsDelete] using (List.mem_filter.mp hr).2
  · intro r hr a ha heq
    have hnot : r.FilterName ∉ ds.map (fun d => d.FilterName) := by
      simpa [needsDelete] using (List.mem_filter.mp hr).2
    exact hnot (List.mem_map.mpr ⟨a, (List.mem_filter.mp ha).1, heq.symm⟩)

/-- Witness of C20: a modified filter is put and not removed, a filter without
a desired namesake is removed. -/
theorem toRemove_toAdd_disjoint_witness :
    ∃ toAdd toRemove : List PutSubscriptionFilterInput,
      compareSubscriptionFilters ([sampleDesired].map some)
        ([sampleModified, sampleOther].map some)
        = some (toAdd.map some, toRemove.map some) ∧
      (∀ r ∈ toRemove, r.FilterName ∉ [sampleDesired].map (fun d => d.FilterName)) ∧
      (∀ r ∈ toRemove, ∀ a ∈ toAdd, r.FilterName ≠ a.FilterName) :=
  toRemove_toAdd_disjoint [sampleDesired] [sampleModified, sampleOther]
    (by decide) (by decide)

/-! ## Defaults before the comparison -/

/-- Claim C18 (retention default).  After `customPreCompare` the retention of
both resources is non-nil: a nil retention has become zero, a non-nil one is
kept; the name, the subscription filters and the status of both resources are
as before.  Hence a resource without retention and one with retention zero
carry the same retention afterwards. -/
theorem customPreCompare_defaults (delta : ackcompare.Delta) (a b : resource) :
    ((customPreCompare delta a b).1.ko.Spec.RetentionDays
        = some (a.ko.Spec.RetentionDays.getD 0) ∧
      (customPreCompare delta a b).2.ko.Spec.RetentionDays
        = some (b.ko.Spec.RetentionDays.getD 0)) ∧
    ((customPreCompare delta a b).1.ko.Spec.Name = a.ko.Spec.Name ∧
      (customPreCompare delta a b).1.ko.Spec.SubscriptionFilters
        = a.ko.Spec.SubscriptionFilters ∧
      (customPreCompare delta a b).1.ko.Status = a.ko.Status) ∧
    ((customPreCompare delta a b).2.ko.Spec.Name = b.ko.Spec.Name ∧
      (customPreCompare delta a b).2.ko.Spec.SubscriptionFilters
        = b.ko.Spec.SubscriptionFilters ∧
      (customPreCompare delta a b).2.ko.Status = b.ko.Status) ∧
    (a.ko.Spec.RetentionDays = none → b.ko.Spec.RetentionDays = some 0 →
      (customPreCompare delta a b).1.ko.Spec.RetentionDays
        = (customPreCompare delta a b).2.ko.Spec.RetentionDays) := by
  unfold customPreCompare
  cases ha : a.ko.Spec.RetentionDays <;> cases hb : b.ko.Spec.RetentionDays <;>
    simp [ha, hb]
  intro h
  exact h.symm

/-- Witness of C18: a resource without retention against one with retention
zero. -/
theorem customPreCompare_defaults_witness :
    (customPreCompare ⟨fun _ => true⟩ ⟨⟨⟨some "lg", none, []⟩, ⟨none⟩⟩⟩
        ⟨⟨⟨some "lg", some 0, []⟩, ⟨some 0⟩⟩⟩).1.ko.Spec.RetentionDays
      = (customPreCompare ⟨fun _ => true⟩ ⟨⟨⟨some "lg", none, []⟩, ⟨none⟩⟩⟩
        ⟨⟨⟨some "lg", some 0, []⟩, ⟨some 0⟩⟩⟩).2.ko.Spec.RetentionDays :=
  (customPreCompare_defaults ⟨fun _ => true⟩ ⟨⟨⟨some "lg", none, []⟩, ⟨none⟩⟩⟩
    ⟨⟨⟨some "lg", some 0, []⟩, ⟨some 0⟩⟩⟩).2.2.2 rfl rfl

/-! ## Reconciling the subscription filters -/

theorem removeLoop_all_succeed (desired : resource) (tr : List PutSubscriptionFilterInput)
    (rest : List (Option Err)) (calls : List Call) (metrics : List APICallRecord) :
    removeLoop desired (tr.map some) ⟨List.replicate tr.length none ++ rest, calls, metrics⟩
      = some (none,
          ⟨rest, calls ++ tr.map (deleteCallFor desired),
           metrics ++ List.replicate tr.length ⟨"UPDATE", "DeleteSubscriptionFilter", none⟩⟩) := by
  induction tr generalizing calls metrics with
  | nil => simp [removeLoop]
  | cons x xs ih =>
    simp only [List.map_cons, List.length_cons, List.replicate_succ, List.cons_append,
      removeLoop, removeSubscriptionFilter]
    refine (ih _ _).trans ?_
    simp [deleteCallFor]

theorem removeLoop_first_error (desired : resource) (pre : List PutSubscriptionFilterInput)
    (x : PutSubscriptionFilterInput) (post : List (Option PutSubscriptionFilterInput))
    (e : Err) (rest : List (Option Err)) (calls : List Call) (metrics : List APICallRecord) :
    removeLoop desired (pre.map some ++ some x :: post)
        ⟨List.replicate pre.length none ++ some e :: rest, calls, metrics⟩
      = some (some e,
          ⟨rest, calls ++ (pre ++ [x]).map (deleteCallFor desired),
           metrics ++ (List.replicate pre.length ⟨"UPDATE", "DeleteSubscriptionFilter", none⟩
             ++ [⟨"UPDATE", "DeleteSubscriptionFilter", some e⟩])⟩) := by
  induction pre generalizing calls metrics with
  | nil => simp [removeLoop, removeSubscriptionFilter, deleteCallFor]
  | cons y ys ih =>
    simp only [List.map_cons, List.length_cons, List.replicate_succ, List.cons_append,
      removeLoop, removeSubscriptionFilter]
    refine (ih _ _).trans ?_
    simp [deleteCallFor]

theorem addLoop_all_succeed (desired : resource) (ta : List PutSubscriptionFilterInput)
    (rest : List (Option Err)) (calls : List Call) (metrics : List APICallRecord) :
    addLoop desired (ta.map some) ⟨List.replicate ta.length none ++ rest, calls, metrics⟩
      = some (none,
          ⟨rest, calls ++ ta.map (putCallFor desired),
           metrics ++ List.replicate ta.length ⟨"UPDATE", "PutSubscriptionFilter", none⟩⟩) := by
  induction ta generalizing calls metrics with
  | nil => simp [addLoop]
  | cons x xs ih =>
    simp only [List.map_cons, List.length_cons, List.replicate_succ, List.cons_append,
      addLoop, addSubscriptionFilter]
    refine (ih _ _).trans ?_
    simp [putCallFor]

theorem addLoop_first_error (desired : resource) (pre : List PutSubscriptionFilterInput)
    (x : PutSubscriptionFilterInput) (post : List (Option PutSubscriptionFilterInput))
    (e : Err) (rest : List (Option Err)) (calls : List Call) (metrics : List APICallRecord) :
    addLoop desired (pre.map some ++ some x :: post)
        ⟨List.replicate pre.length none ++ some e :: rest, calls, metrics⟩
      = some (some e,
          ⟨rest, calls ++ (pre ++ [x]).map (putCallFor desired),
           metrics ++ (List.replicate pre.length ⟨"UPDATE", "PutSubscriptionFilter", none⟩
             ++ [⟨"UPDATE", "PutSubscriptionFilter", some e⟩])⟩) := by
  induction pre generalizing calls metrics with
  | nil => simp [addLoop, addSubscriptionFilter, putCallFor]
  | cons y ys ih =>
    simp only [List.map_cons, List.length_cons, List.replicate_succ, List.cons_append,
      addLoop, addSubscriptionFilter]
    refine (ih _ _).trans ?_
    simp [putCallFor]

/-- Claim C11 (fail-fast in the filter batch).  Let `(toAdd, toRemove)` be
the diff.  If the remote answers the removals of the entries `pre` of
`toRemove` without error and the removal of the next entry `x` with the error
`e`, then `updateSubscriptionFilters` issues these `pre.length + 1` removals
and nothing else and returns `e`.  If it answers all removals and the puts of
the entries `pre` of `toAdd` without error and the put of the next entry `x`
with `e`, then `updateSubscriptionFilters` issues the removals, these
`pre.length + 1` puts and nothing else and returns `e`. -/
theorem updateSubscriptionFilters_fail_fast (desired latest : resource)
    (toAdd toRemove : List (Option PutSubscriptionFilterInput))
    (hdiff : compareSubscriptionFilters desired.ko.Spec.SubscriptionFilters
      latest.ko.Spec.SubscriptionFilters = some (toAdd, toRemove))
    (e : Err) (rest : List (Option Err)) (calls : List Call) (metrics : List APICallRecord) :
    (∀ (pre : List PutSubscriptionFilterInput) (x : PutSubscriptionFilterInput)
        (post : List (Option PutSubscriptionFilterInput)),
      toRemove = pre.map some ++ some x :: post →
      updateSubscriptionFilters desired latest
          ⟨List.replicate pre.length none ++ some e :: rest, calls, metrics⟩
        = some (some e,
            ⟨rest, calls ++ (pre ++ [x]).map (deleteCallFor desired),
             metrics ++ (List.replicate pre.length
               ⟨"UPDATE", "DeleteSubscriptionFilter", none⟩
               ++ [⟨"UPDATE", "DeleteSubscriptionFilter", some e⟩])⟩)) ∧
    (∀ (removed pre : List PutSubscriptionFilterInput) (x : PutSubscriptionFilterInput)
        (post : List (Option PutSubscriptionFilterInput)),
      toRemove = removed.map some → toAdd = pre.map some ++ some x :: post →
      updateSubscriptionFilters desired latest
          ⟨List.replicate removed.length none ++
            (List.replicate pre.length none ++ some e :: rest), calls, metrics⟩
        = some (some e,
            ⟨rest,
             calls ++ removed.map (deleteCallFor desired)
               ++ (pre ++ [x]).map (putCallFor desired),
             metrics ++ List.replicate removed.length
                 ⟨"UPDATE", "DeleteSubscriptionFilter", none⟩
               ++ (List.replicate pre.length ⟨"UPDATE", "PutSubscriptionFilter", none⟩
                 ++ [⟨"UPDATE", "PutSubscriptionFilter", some e⟩])⟩)) := by
  constructor
  · intro pre x post hrem
    subst hrem
    simp only [updateSubscriptionFilters, hdiff, removeLoop_first_error]
  · intro removed pre x post hrem hadd
    subst hrem
    subst hadd
    simp only [updateSubscriptionFilters, hdiff, removeLoop_all_succeed,
      addLoop_first_error]

/-- Witness of C11: two filters to remove, the first removal fails; the second
outcome of the script is left unconsumed and one call is logged. -/
theorem updateSubscriptionFilters_fail_fast_witness :
    updateSubscriptionFilters sampleEmptyGroup sampleLatestGroup
        ⟨List.replicate ([] : List PutSubscriptionFilterInput).length none ++
          some ⟨"denied"⟩ :: [none], [], []⟩
      = some (some ⟨"denied"⟩,
          ⟨[none], [] ++ ([] ++ [sampleModified]).map (deleteCallFor sampleEmptyGroup),
           [] ++ (List.replicate ([] : List PutSubscriptionFilterInput).length
               ⟨"UPDATE", "DeleteSubscriptionFilter", none⟩
             ++ [⟨"UPDATE", "DeleteSubscriptionFilter", some ⟨"denied"⟩⟩])⟩) :=
  (updateSubscriptionFilters_fail_fast sampleEmptyGroup sampleLatestGroup
    [] [some sampleModified, some sampleOther] (by decide) ⟨"denied"⟩ [none] [] []).1
    [] sampleModified [some sampleOther] rfl

/-- Claim C12 as stated fails.  First input: the desired filter has a nil
name, the diff dereferences it and `updateSubscriptionFilters` returns
nothing and issues no call.  Second input: the desired list holds a nil entry
and nothing is observed; the diff returns that entry in `toAdd` and the put
dereferences it. -/
theorem updateSubscriptionFilters_order_counterexample :
    (updateSubscriptionFilters
        ⟨⟨⟨some "lg", none, [some ⟨some "arn", none, none, some "p", none⟩]⟩, ⟨none⟩⟩⟩
        ⟨⟨⟨some "lg", none, [some sampleObserved]⟩, ⟨none⟩⟩⟩
        ⟨[none, none], [], []⟩).isNone = true ∧
    compareSubscriptionFilters [none] [] = some ([none], []) ∧
    (updateSubscriptionFilters
        ⟨⟨⟨some "lg", none, [none]⟩, ⟨none⟩⟩⟩
        ⟨⟨⟨some "lg", none, []⟩, ⟨none⟩⟩⟩
        ⟨[none, none], [], []⟩).isNone = true := by
  decide

/-- Claim C12, amended (removals before puts).  When the diff of the desired
against the latest filters is returned and every entry of `toAdd` and
`toRemove` is non-nil, and every remote call succeeds, `updateSubscriptionFilters`
issues one `DeleteSubscriptionFilter` per entry of `toRemove` in list order,
then one `PutSubscriptionFilter` per entry of `toAdd` in list order, each with
the fields of the entry and the name of the desired log group, and returns
nil. -/
theorem updateSubscriptionFilters_removes_then_adds (desired latest : resource)
    (toAdd toRemove : List PutSubscriptionFilterInput)
    (hdiff : compareSubscriptionFilters desired.ko.Spec.SubscriptionFilters
      latest.ko.Spec.SubscriptionFilters = some (toAdd.map some, toRemove.map some))
    (rest : List (Option Err)) (calls : List Call) (metrics : List APICallRecord) :
    updateSubscriptionFilters desired latest
        ⟨List.replicate toRemove.length none ++ (List.replicate toAdd.length none ++ rest),
          calls, metrics⟩
      = some (none,
          ⟨rest,
           calls ++ toRemove.map (deleteCallFor desired) ++ toAdd.map (putCallFor desired),
           metrics ++ List.replicate toRemove.length
               ⟨"UPDATE", "DeleteSubscriptionFilter", none⟩
             ++ List.replicate toAdd.length ⟨"UPDATE", "PutSubscriptionFilter", none⟩⟩) := by
  simp only [updateSubscriptionFilters, hdiff, removeLoop_all_succeed, addLoop_all_succeed]

/-- Witness of the amended C12: the filter named `g` is removed, then the
modified filter named `f` is put. -/
theorem updateSubscriptionFilters_removes_then_adds_witness :
    updateSubscriptionFilters sampleDesiredGroup sampleLatestGroup
        ⟨List.replicate [sampleOther].length none ++
          (List.replicate [sampleDesired].length none ++ []), [], []⟩
      = some (none,
          ⟨[],
           [] ++ [sampleOther].map (deleteCallFor sampleDesiredGroup)
             ++ [sampleDesired].map (putCallFor sampleDesiredGroup),
           [] ++ List.replicate [sampleOther].length
               ⟨"UPDATE", "DeleteSubscriptionFilter", none⟩
             ++ List.replicate [sampleDesired].length
               ⟨"UPDATE", "PutSubscriptionFilter", none⟩⟩) :=
  updateSubscriptionFilters_removes_then_adds sampleDesiredGroup sampleLatestGroup
    [sampleDesired] [sampleOther] (by decide) [] [] []

/-! ## The update hook -/

theorem customUpdateFilters_outcome (desired latest : resource) (delta : ackcompare.Delta)
    (ko : svcapitypes.LogGroup) (w : World (Option Err)) :
    (customUpdateFilters desired latest delta ko w).map (fun r => (r.1.2, r.2))
      = if delta.DifferentAt "Spec.SubscriptionFilters" then
          updateSubscriptionFilters desired latest w
        else some (none, w) := by
  unfold customUpdateFilters
  split
  · rcases h : updateSubscriptionFilters desired latest w with _ | ⟨_ | e, w1⟩ <;> simp
  · simp

theorem customUpdateFilters_snapshot (desired latest : resource) (delta : ackcompare.Delta)
    (ko : svcapitypes.LogGroup) (w w1 : World (Option Err)) (updated : resource)
    (err : Option Err)
    (h : customUpdateFilters desired latest delta ko w = some ((updated, err), w1)) :
    (err = none → updated = ⟨writeStatusRetention desired ko⟩) ∧
    (err ≠ none → updated = ⟨ko⟩) := by
  unfold customUpdateFilters at h
  split at h
  · rcases h1 : updateSubscriptionFilters desired latest w with _ | ⟨_ | e, w2⟩ <;>
      simp [h1] at h
    · obtain ⟨⟨h2, h3⟩, _⟩ := h
      subst h2
      subst h3
      simp
    · obtain ⟨⟨h2, h3⟩, _⟩ := h
      subst h2
      subst h3
      simp
  · simp at h
    obtain ⟨⟨h2, h3⟩, _⟩ := h
    subst h2
    subst h3
    simp

theorem customUpdateLogGroup_snapshot (rm : resourceManager) (desired latest : resource)
    (delta : ackcompare.Delta) (w w1 : World (Option Err)) (updated : resource)
    (err : Option Err)
    (h : customUpdateLogGroup rm desired latest delta w = some ((updated, err), w1)) :
    (err = none → updated = ⟨writeStatusRetention desired (rm.setStatusDefaults desired.ko)⟩) ∧
    (err ≠ none → updated = ⟨rm.setStatusDefaults desired.ko⟩) := by
  unfold customUpdateLogGroup at h
  simp only at h
  split at h
  · rcases h1 : updateRetentionPeriod desired w with _ | ⟨_ | e, w2⟩ <;> simp [h1] at h
    · exact customUpdateFilters_snapshot desired latest delta _ _ _ _ _ h
    · obtain ⟨⟨h2, h3⟩, _⟩ := h
      subst h2
      subst h3
      simp
  · exact customUpdateFilters_snapshot desired latest delta _ _ _ _ _ h

/-- Claim C13 (delta gating).  The error and the remote effects of
`customUpdateLogGroup` are those of the retention reconciliation when only
`Spec.RetentionDays` is flagged, those of the filter reconciliation when only
`Spec.SubscriptionFilters` is flagged, those of the retention reconciliation
followed, unless it failed, by the filter reconciliation when both are
flagged, and none at all, with a nil error, when neither is flagged. -/
theorem customUpdateLogGroup_delta_gating (rm : resourceManager) (desired latest : resource)
    (delta : ackcompare.Delta) (w : World (Option Err)) :
    (delta.DifferentAt "Spec.RetentionDays" = false →
      delta.DifferentAt "Spec.SubscriptionFilters" = false →
      (customUpdateLogGroup rm desired latest delta w).map (fun r => (r.1.2, r.2))
        = some (none, w)) ∧
    (delta.DifferentAt "Spec.RetentionDays" = true →
      delta.DifferentAt "Spec.SubscriptionFilters" = false →
      (customUpdateLogGroup rm desired latest delta w).map (fun r => (r.1.2, r.2))
        = updateRetentionPeriod desired w) ∧
    (delta.DifferentAt "Spec.RetentionDays" = false →
      delta.DifferentAt "Spec.SubscriptionFilters" = true →
      (customUpdateLogGroup rm desired latest delta w).map (fun r => (r.1.2, r.2))
        = updateSubscriptionFilters desired latest w) ∧
    (delta.DifferentAt "Spec.RetentionDays" = true →
      delta.DifferentAt "Spec.SubscriptionFilters" = true →
      (customUpdateLogGroup rm desired latest delta w).map (fun r => (r.1.2, r.2))
        = match updateRetentionPeriod desired w with
          | none => none
          | some (some err, w1) => some (some err, w1)
          | some (none, w1) => updateSubscriptionFilters desired latest w1) := by
  refine ⟨?_, ?_, ?_, ?_⟩
  · intro hr hf
    simp [customUpdateLogGroup, hr, customUpdateFilters_outcome, hf]
  · intro hr hf
    simp only [customUpdateLogGroup, hr, if_true]
    rcases h : updateRetentionPeriod desired w with _ | ⟨_ | e, w1⟩ <;>
      simp [customUpdateFilters_outcome, hf]
  · intro hr hf
    simp [customUpdateLogGroup, hr, customUpdateFilters_outcome, hf]
  · intro hr hf
    simp only [customUpdateLogGroup, hr, if_true]
    rcases h : updateRetentionPeriod desired w with _ | ⟨_ | e, w1⟩ <;>
      simp [customUpdateFilters_outcome, hf]

/-- Witness of C13: with no field flagged nothing is consumed and nothing is
logged, although retention and filters of the two resources differ; with both
fields flagged and a failing retention call the filter calls are not made. -/
theorem customUpdateLogGroup_delta_gating_witness :
    (customUpdateLogGroup sampleManager sampleDesiredGroup sampleLatestGroup
        ⟨fun _ => false⟩ ⟨[none, none, none], [], []⟩).map (fun r => (r.1.2, r.2))
      = some (none, ⟨[none, none, none], [], []⟩) ∧
    (customUpdateLogGroup sampleManager sampleDesiredGroup sampleLatestGroup
        ⟨fun _ => true⟩ ⟨[some ⟨"denied"⟩, none, none], [], []⟩).map (fun r => (r.1.2, r.2))
      = match updateRetentionPeriod sampleDesiredGroup
            ⟨[some ⟨"denied"⟩, none, none], [], []⟩ with
        | none => none
        | some (some err, w1) => some (some err, w1)
        | some (none, w1) => updateSubscriptionFilters sampleDesiredGroup sampleLatestGroup w1 :=
  ⟨(customUpdateLogGroup_delta_gating sampleManager sampleDesiredGroup sampleLatestGroup
      ⟨fun _ => false⟩ ⟨[none, none, none], [], []⟩).1 rfl rfl,
   (customUpdateLogGroup_delta_gating sampleManager sampleDesiredGroup sampleLatestGroup
      ⟨fun _ => true⟩ ⟨[some ⟨"denied"⟩, none, none], [], []⟩).2.2.2 rfl rfl⟩

/-- Claim C14 (status retention on success).  When `customUpdateLogGroup`
returns without error, the returned snapshot has the spec of `desired`, its
status retention is the desired retention when that is set (zero included) and
zero when it is nil, and it is never nil. -/
theorem customUpdateLogGroup_status_retention (rm : resourceManager)
    (desired latest : resource) (delta : ackcompare.Delta) (w w1 : World (Option Err))
    (updated : resource)
    (h : customUpdateLogGroup rm desired latest delta w = some ((updated, none), w1)) :
    updated.ko.Spec = desired.ko.Spec ∧
    (∀ days : Int, desired.ko.Spec.RetentionDays = some days →
      updated.ko.Status.RetentionInDays = some days) ∧
    (desired.ko.Spec.RetentionDays = none → updated.ko.Status.RetentionInDays = some 0) ∧
    updated.ko.Status.RetentionInDays ≠ none := by
  have hsnap := (customUpdateLogGroup_snapshot rm desired latest delta w w1 updated none h).1 rfl
  subst hsnap
  unfold writeStatusRetention resourceManager.setStatusDefaults
  cases hr : desired.ko.Spec.RetentionDays <;> simp

/-- Witness of C14: retention 7 is put without error and written to the
status. -/
theorem customUpdateLogGroup_status_retention_witness :
    (⟨writeStatusRetention sampleDesiredGroup
        (sampleManager.setStatusDefaults sampleDesiredGroup.ko)⟩ : resource).ko.Spec
      = sampleDesiredGroup.ko.Spec ∧
    (∀ days : Int, sampleDesiredGroup.ko.Spec.RetentionDays = some days →
      (⟨writeStatusRetention sampleDesiredGroup
        (sampleManager.setStatusDefaults sampleDesiredGroup.ko)⟩ :
          resource).ko.Status.RetentionInDays = some days) ∧
    (sampleDesiredGroup.ko.Spec.RetentionDays = none →
      (⟨writeStatusRetention sampleDesiredGroup
        (sampleManager.setStatusDefaults sampleDesiredGroup.ko)⟩ :
          resource).ko.Status.RetentionInDays = some 0) ∧
    (⟨writeStatusRetention sampleDesiredGroup
        (sampleManager.setStatusDefaults sampleDesiredGroup.ko)⟩ :
          resource).ko.Status.RetentionInDays ≠ none :=
  customUpdateLogGroup_status_retention sampleManager sampleDesiredGroup sampleLatestGroup
    ⟨fun path => decide (path = "Spec.RetentionDays")⟩ ⟨[none], [], []⟩
    ⟨[], [Call.PutRetentionPolicy { LogGroupName := some "lg", RetentionInDays := some 7 }],
      [⟨"UPDATE", "PutRetentionPolicy", none⟩]⟩
    ⟨writeStatusRetention sampleDesiredGroup
      (sampleManager.setStatusDefaults sampleDesiredGroup.ko)⟩ rfl

/-- Claim C15 (abort on error).  If the retention reconciliation that
`customUpdateLogGroup` invokes returns an error, or the filter reconciliation
that it invokes after the retention step does, then `customUpdateLogGroup`
returns that error, the world is the one that the failed reconciliation left
(no further call), and the snapshot is the copy of `desired` with the status
defaults: it has the spec of `desired` and its status is the defaulted status
of `desired`, in which the desired retention has not been written. -/
theorem customUpdateLogGroup_abort_on_error (rm : resourceManager)
    (desired latest : resource) (delta : ackcompare.Delta) (w : World (Option Err)) :
    (∀ (e : Err) (w1 : World (Option Err)),
      delta.DifferentAt "Spec.RetentionDays" = true →
      updateRetentionPeriod desired w = some (some e, w1) →
      customUpdateLogGroup rm desired latest delta w
        = some ((⟨rm.setStatusDefaults desired.ko⟩, some e), w1)) ∧
    (∀ (e : Err) (w1 w2 : World (Option Err)),
      delta.DifferentAt "Spec.SubscriptionFilters" = true →
      ((delta.DifferentAt "Spec.RetentionDays" = false ∧ w1 = w) ∨
        (delta.DifferentAt "Spec.RetentionDays" = true ∧
          updateRetentionPeriod desired w = some (none, w1))) →
      updateSubscriptionFilters desired latest w1 = some (some e, w2) →
      customUpdateLogGroup rm desired latest delta w
        = some ((⟨rm.setStatusDefaults desired.ko⟩, some e), w2)) ∧
    (rm.setStatusDefaults desired.ko).Spec = desired.ko.Spec ∧
    (rm.setStatusDefaults desired.ko).Status = rm.statusDefaults desired.ko.Status := by
  refine ⟨?_, ?_, rfl, rfl⟩
  · intro e w1 hr hret
    simp [customUpdateLogGroup, hr, hret]
  · intro e w1 w2 hf hstep hfil
    rcases hstep with ⟨hr, hw⟩ | ⟨hr, hret⟩
    · subst hw
      simp [customUpdateLogGroup, hr, customUpdateFilters, hf, hfil]
    · simp [customUpdateLogGroup, hr, hret, customUpdateFilters, hf, hfil]

/-- Witness of C15: both fields are flagged and the retention call fails; one
call is logged, the two outcomes meant for the filter calls are left, and the
status retention of the snapshot is still nil. -/
theorem customUpdateLogGroup_abort_on_error_witness :
    customUpdateLogGroup sampleManager sampleDesiredGroup sampleLatestGroup
        ⟨fun _ => true⟩ ⟨[some ⟨"denied"⟩, none, none], [], []⟩
      = some ((⟨sampleManager.setStatusDefaults sampleDesiredGroup.ko⟩, some ⟨"denied"⟩),
          ⟨[none, none],
           [Call.PutRetentionPolicy { LogGroupName := some "lg", RetentionInDays := some 7 }],
           [⟨"UPDATE", "PutRetentionPolicy", some ⟨"denied"⟩⟩]⟩) :=
  (customUpdateLogGroup_abort_on_error sampleManager sampleDesiredGroup sampleLatestGroup
    ⟨fun _ => true⟩ ⟨[some ⟨"denied"⟩, none, none], [], []⟩).1 ⟨"denied"⟩
    ⟨[none, none],
      [Call.PutRetentionPolicy { LogGroupName := some "lg", RetentionInDays := some 7 }],
      [⟨"UPDATE", "PutRetentionPolicy", some ⟨"denied"⟩⟩]⟩ rfl rfl

/-! ## A second pass over applied changes -/

theorem mem_upsertByName (coll : List PutSubscriptionFilterInput)
    (f x : PutSubscriptionFilterInput) (h : x ∈ upsertByName coll f) :
    x = f ∨ (x ∈ coll ∧ x.FilterName ≠ f.FilterName) := by
  unfold upsertByName at h
  split at h
  · obtain ⟨y, hy, hyx⟩ := List.mem_map.mp h
    by_cases hname : y.FilterName = f.FilterName
    · left
      simpa [hname] using hyx.symm
    · right
      have hxy : x = y := by simpa [hname] using hyx.symm
      subst hxy
      exact ⟨hy, hname⟩
  · rename_i hany
    rcases List.mem_append.mp h with hx | hx
    · right
      refine ⟨hx, fun hname => hany ?_⟩
      exact List.any_eq_true.mpr ⟨x, hx, by simpa using hname⟩
    · left
      simpa using hx

theorem mem_foldl_upsertByName (toAdd coll : List PutSubscriptionFilterInput)
    (x : PutSubscriptionFilterInput) (h : x ∈ toAdd.foldl upsertByName coll) :
    x ∈ coll ∨ x ∈ toAdd := by
  induction toAdd generalizing coll with
  | nil => exact Or.inl h
  | cons f fs ih =>
    rcases ih _ h with h1 | h1
    · rcases mem_upsertByName coll f x h1 with h2 | h2
      · exact Or.inr (h2 ▸ List.mem_cons_self _ _)
      · exact Or.inl h2.1
    · exact Or.inr (List.mem_cons_of_mem _ h1)

theorem foldl_upsertByName_other_names (Q : PutSubscriptionFilterInput → Prop)
    (n : Option String) (toAdd coll : List PutSubscriptionFilterInput)
    (hother : ∀ f ∈ toAdd, f.FilterName ≠ n)
    (hcoll : ∀ x ∈ coll, x.FilterName = n → Q x) :
    ∀ x ∈ toAdd.foldl upsertByName coll, x.FilterName = n → Q x := by
  induction toAdd generalizing coll with
  | nil => exact hcoll
  | cons f fs ih =>
    refine ih _ (fun g hg => hother g (List.mem_cons_of_mem _ hg)) ?_
    intro x hx hname
    rcases mem_upsertByName coll f x hx with h | h
    · exact absurd (h ▸ hname) (hother f (List.mem_cons_self _ _))
    · exact hcoll x h.1 hname

theorem foldl_upsertByName_own_name (Q : PutSubscriptionFilterInput → Prop)
    (d : PutSubscriptionFilterInput) (hQ : Q d) (toAdd : List PutSubscriptionFilterInput)
    (hnodup : (toAdd.map (fun f => f.FilterName)).Nodup) (hmem : d ∈ toAdd)
    (coll : List PutSubscriptionFilterInput) :
    ∀ x ∈ toAdd.foldl upsertByName coll, x.FilterName = d.FilterName → Q x := by
  induction toAdd generalizing coll with
  | nil => exact absurd hmem (List.not_mem_nil _)
  | cons f fs ih =>
    rw [List.map_cons, List.nodup_cons] at hnodup
    by_cases hfd : f = d
    · subst hfd
      refine foldl_upsertByName_other_names Q f.FilterName fs _ ?_ ?_
      · intro g hg hname
        exact hnodup.1 (List.mem_map.mpr ⟨g, hg, hname⟩)
      · intro x hx hname
        rcases mem_upsertByName coll f x hx with h | h
        · exact h ▸ hQ
        · exact absurd hname h.2
    · have hd : d ∈ fs := by
        rcases List.mem_cons.mp hmem with h | h
        · exact absurd h.symm hfd
        · exact h
      exact ih hnodup.2 hd _

theorem equalSubscriptionFilters_self (d : PutSubscriptionFilterInput)
    (hdist : d.Distribution ≠ none) : equalSubscriptionFilters d d = some true := by
  obtain ⟨v, hv⟩ := Option.ne_none_iff_exists'.mp hdist
  unfold equalSubscriptionFilters
  simp [equalStrings_refl, hv]

theorem mem_names_applyDiff (ds os : List PutSubscriptionFilterInput) (n : Option String) :
    n ∈ (applyDiff os (ds.filter (needsPut os)) (os.filter (needsDelete ds))).map
        (fun f => f.FilterName)
      ↔ n ∈ ds.map (fun f => f.FilterName) := by
  unfold applyDiff
  rw [mem_names_foldl_upsertByName, mem_names_deleteNamed]
  constructor
  · rintro (⟨hn, hnot⟩ | hn)
    · by_contra hnd
      apply hnot
      obtain ⟨o, hmem, rfl⟩ := List.mem_map.mp hn
      refine List.mem_map.mpr ⟨o, List.mem_filter.mpr ⟨hmem, ?_⟩, rfl⟩
      simpa [needsDelete] using hnd
    · obtain ⟨d, hmem, rfl⟩ := List.mem_map.mp hn
      exact List.mem_map.mpr ⟨d, (List.mem_filter.mp hmem).1, rfl⟩
  · intro hn
    obtain ⟨d, hmem, rfl⟩ := List.mem_map.mp hn
    cases hnp : needsPut os d
    · left
      have hsn : ∃ o, sameNamed os d = some o := by
        unfold needsPut at hnp
        cases hs : sameNamed os d
        · simp [hs] at hnp
        · exact ⟨_, rfl⟩
      obtain ⟨o, hso⟩ := hsn
      obtain ⟨homem, honame⟩ := sameNamed_some os d o hso
      refine ⟨List.mem_map.mpr ⟨o, homem, honame⟩, ?_⟩
      intro hrem
      obtain ⟨x, hx, hxn⟩ := List.mem_map.mp hrem
      have hdel := (List.mem_filter.mp hx).2
      simp only [needsDelete, decide_eq_true_eq] at hdel
      apply hdel
      rw [hxn]
      exact hn
    · right
      exact List.mem_map.mpr ⟨d, List.mem_filter.mpr ⟨hmem, hnp⟩, rfl⟩

/-- After the diff has been applied, every filter of the collection that
carries the name of a desired filter is equivalent to that desired filter. -/
theorem applyDiff_equivalent (ds os : List PutSubscriptionFilterInput)
    (hdd : ∀ d ∈ ds, d.Distribution ≠ none)
    (ho : ∀ o ∈ os, o.FilterName ≠ none ∧ o.Distribution ≠ none)
    (hdn : (ds.map (fun f => f.FilterName)).Nodup)
    (hon : (os.map (fun f => f.FilterName)).Nodup)
    (d : PutSubscriptionFilterInput) (hmem : d ∈ ds) :
    ∀ x ∈ applyDiff os (ds.filter (needsPut os)) (os.filter (needsDelete ds)),
      x.FilterName = d.FilterName → equalSubscriptionFilters d x = some true := by
  have htan : ((ds.filter (needsPut os)).map (fun f => f.FilterName)).Nodup :=
    List.Nodup.sublist ((List.filter_sublist ds).map _) hdn
  unfold applyDiff
  cases hnp : needsPut os d
  · refine foldl_upsertByName_other_names _ d.FilterName _ _ ?_ ?_
    · intro f hf hname
      have hfd : f = d :=
        List.inj_on_of_nodup_map hdn (List.mem_filter.mp hf).1 hmem hname
      subst hfd
      have := (List.mem_filter.mp hf).2
      simp [hnp] at this
    · intro x hx hname
      have hxo : x ∈ os := (List.mem_filter.mp hx).1
      unfold needsPut at hnp
      cases hs : sameNamed os d with
      | none => simp [hs] at hnp
      | some o =>
        obtain ⟨homem, honame⟩ := sameNamed_some os d o hs
        have hxeq : x = o := List.inj_on_of_nodup_map hon hxo homem (hname.trans honame.symm)
        subst hxeq
        rcases equalSubscriptionFilters_total d x (ho x hxo).2 with h | h
        · exact h
        · simp [hs, h] at hnp
  · exact foldl_upsertByName_own_name _ d (equalSubscriptionFilters_self d (hdd d hmem)) _
      htan (List.mem_filter.mpr ⟨hmem, hnp⟩) _

theorem needsPut_false_of_equivalent (coll : List PutSubscriptionFilterInput)
    (d : PutSubscriptionFilterInput)
    (hex : ∃ x ∈ coll, x.FilterName = d.FilterName)
    (heq : ∀ x ∈ coll, x.FilterName = d.FilterName →
      equalSubscriptionFilters d x = some true) :
    needsPut coll d = false := by
  unfold needsPut
  cases hs : sameNamed coll d with
  | none =>
    obtain ⟨x, hx, hxn⟩ := hex
    unfold sameNamed at hs
    rw [List.find?_eq_none] at hs
    exact absurd (by simpa using hxn) (hs x hx)
  | some o =>
    obtain ⟨homem, honame⟩ := sameNamed_some _ d o hs
    simp [heq o homem honame]

/-- Claim C16 (re-run idempotence).  For lists of non-nil filters with
non-nil, pairwise distinct names within each list and non-nil distributions:
the diff `(toAdd, toRemove)` is returned, and the diff of `desired` against
the observed collection after the removals of `toRemove` and the puts of
`toAdd` is returned with an empty `toAdd` and an empty `toRemove`. -/
theorem compareSubscriptionFilters_second_pass_empty
    (ds os : List PutSubscriptionFilterInput)
    (hd : ∀ d ∈ ds, d.FilterName ≠ none ∧ d.Distribution ≠ none)
    (ho : ∀ o ∈ os, o.FilterName ≠ none ∧ o.Distribution ≠ none)
    (hdn : (ds.map (fun f => f.FilterName)).Nodup)
    (hon : (os.map (fun f => f.FilterName)).Nodup) :
    ∃ toAdd toRemove : List PutSubscriptionFilterInput,
      compareSubscriptionFilters (ds.map some) (os.map some)
        = some (toAdd.map some, toRemove.map some) ∧
      compareSubscriptionFilters (ds.map some) ((applyDiff os toAdd toRemove).map some)
        = some ([], []) := by
  have hdname : ∀ d ∈ ds, d.FilterName ≠ none := fun d h => (hd d h).1
  refine ⟨_, _, compareSubscriptionFilters_map_some ds os hdname ho, ?_⟩
  have ho1 : ∀ x ∈ applyDiff os (ds.filter (needsPut os)) (os.filter (needsDelete ds)),
      x.FilterName ≠ none ∧ x.Distribution ≠ none := by
    intro x hx
    unfold applyDiff at hx
    rcases mem_foldl_upsertByName _ _ x hx with h | h
    · exact ho x (List.mem_filter.mp h).1
    · exact hd x (List.mem_filter.mp h).1
  rw [compareSubscriptionFilters_map_some ds _ hdname ho1]
  have hput : ds.filter (needsPut
      (applyDiff os (ds.filter (needsPut os)) (os.filter (needsDelete ds)))) = [] := by
    rw [List.filter_eq_nil_iff]
    intro d hmem hnp
    have hin := (mem_names_applyDiff ds os d.FilterName).mpr
      (List.mem_map.mpr ⟨d, hmem, rfl⟩)
    obtain ⟨x, hx, hxn⟩ := List.mem_map.mp hin
    rw [needsPut_false_of_equivalent _ d ⟨x, hx, hxn⟩
      (applyDiff_equivalent ds os (fun y h => (hd y h).2) ho hdn hon d hmem)] at hnp
    exact Bool.noConfusion hnp
  have hdel : (applyDiff os (ds.filter (needsPut os)) (os.filter (needsDelete ds))).filter
      (needsDelete ds) = [] := by
    rw [List.filter_eq_nil_iff]
    intro x hx hnd
    simp only [needsDelete, decide_eq_true_eq] at hnd
    exact hnd ((mem_names_applyDiff ds os x.FilterName).mp (List.mem_map.mpr ⟨x, hx, rfl⟩))
  rw [hput, hdel]
  rfl

/-- Witness of C16: a modified filter, a filter to remove and a new filter;
after the changes the second diff is empty. -/
theorem compareSubscriptionFilters_second_pass_empty_witness :
    ∃ toAdd toRemove : List PutSubscriptionFilterInput,
      compareSubscriptionFilters
        ([sampleObserved, { sampleOther with FilterName := some "h" }].map some)
        ([sampleModified, sampleOther].map some)
        = some (toAdd.map some, toRemove.map some) ∧
      compareSubscriptionFilters
        ([sampleObserved, { sampleOther with FilterName := some "h" }].map some)
        ((applyDiff [sampleModified, sampleOther] toAdd toRemove).map some)
        = some ([], []) :=
  compareSubscriptionFilters_second_pass_empty
    [sampleObserved, { sampleOther with FilterName := some "h" }]
    [sampleModified, sampleOther] (by decide) (by decide) (by decide) (by decide)

/-! ## Metrics -/

theorem Recorded.refl {ρ : Type} (errOf : ρ → Option Err) (w : World ρ) :
    Recorded errOf w w :=
  ⟨[], [], by simp, by simp, rfl, by simp⟩

theorem Recorded.trans {ρ : Type} {errOf : ρ → Option Err} {w w1 w2 : World ρ}
    (h1 : Recorded errOf w w1) (h2 : Recorded errOf w1 w2) : Recorded errOf w w2 := by
  obtain ⟨c1, i1, hp1, hc1, hl1, hm1⟩ := h1
  obtain ⟨c2, i2, hp2, hc2, hl2, hm2⟩ := h2
  refine ⟨c1 ++ c2, i1 ++ i2, ?_, ?_, ?_, ?_⟩
  · rw [hp1, hp2, List.append_assoc]
  · rw [hc2, hc1, List.append_assoc]
  · simp [hl1, hl2]
  · rw [hm2, hm1, List.append_assoc, List.map_append,
      List.zipWith_append _ _ _ _ _ (by simpa using hl1)]

theorem Recorded.step {ρ : Type} (errOf : ρ → Option Err) (r : ρ) (rest : List ρ)
    (calls : List Call) (metrics : List APICallRecord) (c : Call) :
    Recorded errOf ⟨r :: rest, calls, metrics⟩
      ⟨rest, calls ++ [c], metrics ++ [recordFor c (errOf r)]⟩ :=
  ⟨[r], [c], rfl, rfl, rfl, rfl⟩

theorem updateRetentionPeriod_recorded (desired : resource) (w w1 : World (Option Err))
    (err : Option Err) (h : updateRetentionPeriod desired w = some (err, w1)) :
    Recorded (fun e => e) w w1 := by
  obtain ⟨pending, calls, metrics⟩ := w
  unfold updateRetentionPeriod at h
  split at h
  · cases pending with
    | nil => simp at h
    | cons r rest =>
      cases r <;> simp at h <;> rw [← h.2] <;>
        exact Recorded.step (fun e => e) _ rest calls metrics _
  · cases pending with
    | nil => simp at h
    | cons r rest =>
      cases r <;> simp at h <;> rw [← h.2] <;>
        exact Recorded.step (fun e => e) _ rest calls metrics _

theorem removeSubscriptionFilter_recorded (desired : resource) (filterName : Option String)
    (w w1 : World (Option Err)) (err : Option Err)
    (h : removeSubscriptionFilter desired filterName w = some (err, w1)) :
    Recorded (fun e => e) w w1 := by
  obtain ⟨pending, calls, metrics⟩ := w
  unfold removeSubscriptionFilter at h
  cases pending with
  | nil => simp at h
  | cons r rest =>
    cases r <;> simp at h <;> rw [← h.2] <;>
      exact Recorded.step (fun e => e) _ rest calls metrics _

theorem addSubscriptionFilter_recorded (desired : resource)
    (subscriptionFilter : Option PutSubscriptionFilterInput)
    (w w1 : World (Option Err)) (err : Option Err)
    (h : addSubscriptionFilter desired subscriptionFilter w = some (err, w1)) :
    Recorded (fun e => e) w w1 := by
  obtain ⟨pending, calls, metrics⟩ := w
  unfold addSubscriptionFilter at h
  cases subscriptionFilter with
  | none => simp at h
  | some sf =>
    cases pending with
    | nil => simp at h
    | cons r rest =>
      cases r <;> simp at h <;> rw [← h.2] <;>
        exact Recorded.step (fun e => e) _ rest calls metrics _

theorem removeLoop_recorded (desired : resource)
    (entries : List (Option PutSubscriptionFilterInput)) (w w1 : World (Option Err))
    (err : Option Err) (h : removeLoop desired entries w = some (err, w1)) :
    Recorded (fun e => e) w w1 := by
  induction entries generalizing w with
  | nil =>
    simp only [removeLoop, Option.some.injEq, Prod.mk.injEq] at h
    rw [← h.2]
    exact Recorded.refl _ w
  | cons x xs ih =>
    cases x with
    | none => simp [removeLoop] at h
    | some sf =>
      simp only [removeLoop] at h
      rcases hstep : removeSubscriptionFilter desired sf.FilterName w with _ | ⟨_ | e, w2⟩
      · simp [hstep] at h
      · rw [hstep] at h
        exact (removeSubscriptionFilter_recorded desired _ w w2 _ hstep).trans (ih w2 h)
      · rw [hstep] at h
        simp only [Option.some.injEq, Prod.mk.injEq] at h
        rw [← h.2]
        exact removeSubscriptionFilter_recorded desired _ w w2 _ hstep

theorem addLoop_recorded (desired : resource)
    (entries : List (Option PutSubscriptionFilterInput)) (w w1 : World (Option Err))
    (err : Option Err) (h : addLoop desired entries w = some (err, w1)) :
    Recorded (fun e => e) w w1 := by
  induction entries generalizing w with
  | nil =>
    simp only [addLoop, Option.some.injEq, Prod.mk.injEq] at h
    rw [← h.2]
    exact Recorded.refl _ w
  | cons x xs ih =>
    simp only [addLoop] at h
    rcases hstep : addSubscriptionFilter desired x w with _ | ⟨_ | e, w2⟩
    · simp [hstep] at h
    · rw [hstep] at h
      exact (addSubscriptionFilter_recorded desired _ w w2 _ hstep).trans (ih w2 h)
    · rw [hstep] at h
      simp only [Option.some.injEq, Prod.mk.injEq] at h
      rw [← h.2]
      exact addSubscriptionFilter_recorded desired _ w w2 _ hstep

theorem updateSubscriptionFilters_recorded (desired latest : resource)
    (w w1 : World (Option Err)) (err : Option Err)
    (h : updateSubscriptionFilters desired latest w = some (err, w1)) :
    Recorded (fun e => e) w w1 := by
  unfold updateSubscriptionFilters at h
  rcases hdiff : compareSubscriptionFilters desired.ko.Spec.SubscriptionFilters
      latest.ko.Spec.SubscriptionFilters with _ | ⟨toAdd, toRemove⟩
  · simp [hdiff] at h
  · rw [hdiff] at h
    simp only at h
    rcases hrem : removeLoop desired toRemove w with _ | ⟨_ | e, w2⟩
    · simp [hrem] at h
    · rw [hrem] at h
      exact (removeLoop_recorded desired _ w w2 _ hrem).trans
        (addLoop_recorded desired _ w2 w1 _ h)
    · rw [hrem] at h
      simp only [Option.some.injEq, Prod.mk.injEq] at h
      rw [← h.2]
      exact removeLoop_recorded desired _ w w2 _ hrem

theorem describeLoop_recorded (name : Option String) (script : List DescribeResponse)
    (token : Option String) (acc : List (Option PutSubscriptionFilterInput))
    (calls : List Call) (metrics : List APICallRecord) (r : ListResult)
    (w1 : World DescribeResponse)
    (h : describeLoop name script token acc calls metrics = some (r, w1)) :
    Recorded errorOf ⟨script, calls, metrics⟩ w1 := by
  induction script generalizing token acc calls metrics with
  | nil => simp [describeLoop] at h
  | cons x xs ih =>
    cases x with
    | error e =>
      simp only [describeLoop, Option.some.injEq, Prod.mk.injEq] at h
      rw [← h.2]
      exact Recorded.step errorOf (Except.error e) xs calls metrics _
    | ok resp =>
      simp only [describeLoop] at h
      cases htok : resp.NextToken with
      | none =>
        rw [htok] at h
        simp only [Option.some.injEq, Prod.mk.injEq] at h
        rw [← h.2]
        exact Recorded.step errorOf (Except.ok resp) xs calls metrics _
      | some next =>
        rw [htok] at h
        exact (Recorded.step errorOf (Except.ok resp) xs calls metrics _).trans
          (ih _ _ _ _ h)

/-- Claim C17 (metrics recording).  In every run of `updateRetentionPeriod`,
`updateSubscriptionFilters` and `getSubscriptionFilters` that returns, with or
without error, the remote outcomes consumed, the calls issued and the metrics
records made are equally many, and the records are, in call order, the records
of the calls issued: operation class and name of the call, and the error of
its outcome.  The same holds of the removal loop and of the put loop on every
list of entries, hence of the state that `updateSubscriptionFilters` has
reached before an entry that is nil. -/
theorem metrics_follow_calls :
    (∀ (desired : resource) (w w1 : World (Option Err)) (err : Option Err),
      updateRetentionPeriod desired w = some (err, w1) → Recorded (fun e => e) w w1) ∧
    (∀ (desired latest : resource) (w w1 : World (Option Err)) (err : Option Err),
      updateSubscriptionFilters desired latest w = some (err, w1) →
      Recorded (fun e => e) w w1) ∧
    (∀ (name : Option String) (w w1 : World DescribeResponse) (r : ListResult),
      getSubscriptionFilters name w = some (r, w1) → Recorded errorOf w w1) ∧
    (∀ (desired : resource) (entries : List (Option PutSubscriptionFilterInput))
        (w w1 : World (Option Err)) (err : Option Err),
      removeLoop desired entries w = some (err, w1) → Recorded (fun e => e) w w1) ∧
    (∀ (desired : resource) (entries : List (Option PutSubscriptionFilterInput))
        (w w1 : World (Option Err)) (err : Option Err),
      addLoop desired entries w = some (err, w1) → Recorded (fun e => e) w w1) :=
  ⟨fun desired w w1 err h => updateRetentionPeriod_recorded desired w w1 err h,
   fun desired latest w w1 err h => updateSubscriptionFilters_recorded desired latest w w1 err h,
   fun name w w1 r h => describeLoop_recorded name w.pending none [] w.calls w.metrics r w1 h,
   fun desired entries w w1 err h => removeLoop_recorded desired entries w w1 err h,
   fun desired entries w w1 err h => addLoop_recorded desired entries w w1 err h⟩

/-- Witness of C17: a filter reconciliation whose second call fails, and a
listing whose second page fails. -/
theorem metrics_follow_calls_witness :
    Recorded (fun e => e)
      (⟨[none, some ⟨"denied"⟩, none], [], []⟩ : World (Option Err))
      ⟨[none],
       [deleteCallFor sampleDesiredGroup sampleOther,
        putCallFor sampleDesiredGroup sampleDesired],
       [⟨"UPDATE", "DeleteSubscriptionFilter", none⟩,
        ⟨"UPDATE", "PutSubscriptionFilter", some ⟨"denied"⟩⟩]⟩ ∧
    Recorded errorOf
      (⟨[Except.ok samplePage1, Except.error ⟨"throttled"⟩], [], []⟩ : World DescribeResponse)
      ⟨[],
       [Call.DescribeSubscriptionFilters { LogGroupName := some "lg", NextToken := none },
        Call.DescribeSubscriptionFilters { LogGroupName := some "lg", NextToken := some "t1" }],
       [⟨"READ_MANY", "DescribeSubscriptionFilters", none⟩,
        ⟨"READ_MANY", "DescribeSubscriptionFilters", some ⟨"throttled"⟩⟩]⟩ :=
  ⟨metrics_follow_calls.2.1 sampleDesiredGroup sampleLatestGroup _ _ (some ⟨"denied"⟩) rfl,
   metrics_follow_calls.2.2.1 (some "lg") _ _ (none, some ⟨"throttled"⟩) rfl⟩

end log_group
